import Mathlib

/-!
exonBlocks: the BAM scan core (`src/scan_core.c`)

A shallow embedding of `write_blocks_one` (the two-cursor walk over a CIGAR
that renders the reference blocks of one alignment) and of the scan loop of
`_exonBlocks_scan_bam_blocks_hts`, followed by the properties proved of them.

Conventions of the embedding.
* Text buffers (`kstring_t`, the row file) are `List Char`.
* C `int` / `int32_t` values are `Int`; every arithmetic result stored in one is
  reduced by `wrap32` (two's-complement wrap-around).
* `base_at` indexes the packed sequence without a bounds check, so a record
  carries, besides its stored sequence bytes, the bytes that follow them in
  memory (`tail`); `bam_get_seq` lists both, and a read past the stored
  sequence yields the byte found there.
* htslib is not part of the repository: its macros and constants are written
  out below with the values of `htslib/sam.h`, and the outcomes of its calls
  (file opening, the region iterator, `sam_write1`, ...) are fields of `ScanEnv`.
-/

namespace ExonBlocks

/-! ## Machine integers -/

/-- The value a C `int` holds after an arithmetic result `x` is stored in it. -/
def wrap32 (x : Int) : Int := (x + 2147483648) % 4294967296 - 2147483648

def INT_MIN : Int := -2147483648
def INT_MAX : Int := 2147483647

/-! ## htslib: CIGAR words, flag bits, packed sequence -/

def BAM_CMATCH : Nat := 0
def BAM_CINS : Nat := 1
def BAM_CDEL : Nat := 2
def BAM_CREF_SKIP : Nat := 3
def BAM_CSOFT_CLIP : Nat := 4
def BAM_CHARD_CLIP : Nat := 5
def BAM_CPAD : Nat := 6
def BAM_CEQUAL : Nat := 7
def BAM_CDIFF : Nat := 8

def BAM_FUNMAP : Nat := 4
def BAM_FSECONDARY : Nat := 256
def BAM_FSUPPLEMENTARY : Nat := 2048

/-- Macro `bam_cigar_op(c)`: `c & 0xf`. -/
def bam_cigar_op (c : Nat) : Nat := c % 16

/-- Macro `bam_cigar_oplen(c)`: `c >> 4` on a `uint32_t` word. -/
def bam_cigar_oplen (c : Nat) : Nat := (c % 4294967296) / 16

/-- Macro `bam_cigar_gen(l, o)`: the CIGAR word of length `l` and operation `o`. -/
def bam_cigar_gen (l o : Nat) : Nat := l * 16 + o

/-- One alignment record, as far as the scan core reads it.
`pos` is `core.pos` (0-based), `flag` is `core.flag`, `cigar` holds the
`uint32_t` CIGAR words (`core.n_cigar` is its length; a record's data is below
2^31 bytes, so the count of words and of blocks fits an `int`), `seq` the bytes
of the 4-bit packed query sequence, `l_qseq` the number of bases.
`xf`, `CB`, `UB` are what `bam_aux_get` followed by `bam_aux2i` / `bam_aux2Z`
deliver for these tags: `none` when the lookup yields a null pointer.
`tail` lists the bytes that follow the stored sequence in memory: the record's
qualities and aux data, then whatever lies after the record, as far as memory
is mapped. -/
structure bam1_t where
  pos : Int
  flag : Nat
  cigar : List Nat
  l_qseq : Nat
  seq : List Nat
  xf : Option Int
  CB : Option (List Char)
  UB : Option (List Char)
  tail : List Nat
deriving DecidableEq

/-- Macro `bam_get_seq(b)`: the pointer to the packed sequence, as the bytes of
memory from that address on: the stored sequence bytes, then `tail`. -/
def bam_get_seq (b : bam1_t) : List Nat := b.seq ++ b.tail

/-- The byte `s[k]`, `s` listing the bytes of memory from the pointer on. There
is no bounds check: an index past the sequence reads what follows it. Only an
index past every listed byte (unmapped memory, where the C program faults) and
a negative index (formed only once the `int` query cursor has wrapped, and then
at least 2^29 bytes before the pointer) have no byte listed; they read 0. -/
def seq_byte (s : List Nat) (k : Int) : Nat :=
  if 0 ≤ k then s.getD k.toNat 0 else 0

/-- Macro `bam_seqi(s, i)`: `s[i >> 1] >> ((~i & 1) << 2) & 0xf`. -/
def bam_seqi (s : List Nat) (i : Int) : Nat :=
  if i % 2 = 0 then (seq_byte s (i / 2) / 16) % 16 else seq_byte s (i / 2) % 16

/-! ## `scan_core.c`: decoding table -/

/-- The string literal that initialises `nt16_table`. -/
def nt16_literal : List Char := "=-ACMGRSVTWYHKDBN".toList

/-- Array `nt16_table[16]`: the 16 slots take the first 16 characters of the
initialiser. -/
def nt16_table : List Char := nt16_literal.take 16

/-- Function `base_at`: `nt16_table[bam_seqi(s, qpos)]`. -/
def base_at (s : List Nat) (qpos : Int) : Char :=
  nt16_table.getD (bam_seqi s qpos) '='

/-! ## kstring -/

/-- Function `kputw(c, s)`: the decimal text of the `int` `c`. -/
def kputw (c : Int) : List Char :=
  if c < 0 then '-' :: Nat.toDigits 10 c.natAbs else Nat.toDigits 10 c.natAbs

/-! ## `write_blocks_one` -/

/-- Local variables and output buffers of `write_blocks_one`. -/
structure WState where
  ref_pos : Int
  qpos : Int
  nblocks : Int
  first : Bool
  ks_start : List Char
  ks_end : List Char
  ks_seq : List Char
deriving DecidableEq

/-- The inner loop `for (j = 0; j < len; ++j) kputc(base_at(qseq, qpos + j), ks_seq)`,
as the characters it appends. -/
def query_slice (qseq : List Nat) (qpos : Int) (len : Nat) : List Char :=
  (List.range len).map (fun (j : Nat) => base_at qseq (wrap32 (qpos + (j : Int))))

/-- The separator `kputc(';', ks)` issued when `first` is 0. -/
def sep (first : Bool) : List Char := if first then [] else [';']

/-- One iteration of the `for` loop over the CIGAR: the `switch (op)`. -/
def cigar_step (qseq : List Nat) (st : WState) (c : Nat) : WState :=
  let op := bam_cigar_op c
  let len : Int := bam_cigar_oplen c
  if op = BAM_CMATCH ∨ op = BAM_CEQUAL ∨ op = BAM_CDIFF then
    let rs := st.ref_pos
    let re := wrap32 (st.ref_pos + len - 1)
    { ref_pos := wrap32 (st.ref_pos + len)
      qpos := wrap32 (st.qpos + len)
      nblocks := st.nblocks + 1
      first := false
      ks_start := st.ks_start ++ sep st.first ++ kputw rs
      ks_end := st.ks_end ++ sep st.first ++ kputw re
      ks_seq := st.ks_seq ++ sep st.first ++ query_slice qseq st.qpos (bam_cigar_oplen c) }
  else if op = BAM_CINS then { st with qpos := wrap32 (st.qpos + len) }
  else if op = BAM_CSOFT_CLIP then { st with qpos := wrap32 (st.qpos + len) }
  else if op = BAM_CDEL then { st with ref_pos := wrap32 (st.ref_pos + len) }
  else if op = BAM_CREF_SKIP then { st with ref_pos := wrap32 (st.ref_pos + len) }
  else st

/-- The `for (i = 0; i < n_cig; ++i)` loop. -/
def cigar_loop (qseq : List Nat) : List Nat → WState → WState
  | [], st => st
  | c :: cs, st => cigar_loop qseq cs (cigar_step qseq st c)

/-- Function `write_blocks_one`: the returned block count and the three buffers
after the call, given the buffers before it. -/
def write_blocks_one (b : bam1_t) (ks_start ks_end ks_seq : List Char) :
    Int × List Char × List Char × List Char :=
  let st := cigar_loop (bam_get_seq b) b.cigar
    { ref_pos := wrap32 (b.pos + 1), qpos := 0, nblocks := 0, first := true,
      ks_start := ks_start, ks_end := ks_end, ks_seq := ks_seq }
  (st.nblocks, st.ks_start, st.ks_end, st.ks_seq)

/-! ## The blocks behind the buffers -/

/-- One reference block: the values `rs`, `re` and the query slice that one
match/equal/diff case of the `switch` renders into the three buffers. -/
structure Block where
  start : Int
  stop : Int
  text : List Char
deriving DecidableEq

/-- The loop of `write_blocks_one` with the rendering left out: the triples
`(rs, re, slice)` of the match/equal/diff cases, in the order they are met,
from the cursor values `ref_pos`, `qpos`. -/
def block_loop (qseq : List Nat) : List Nat → Int → Int → List Block
  | [], _, _ => []
  | c :: cs, ref_pos, qpos =>
    let op := bam_cigar_op c
    let len : Int := bam_cigar_oplen c
    if op = BAM_CMATCH ∨ op = BAM_CEQUAL ∨ op = BAM_CDIFF then
      { start := ref_pos, stop := wrap32 (ref_pos + len - 1),
        text := query_slice qseq qpos (bam_cigar_oplen c) } ::
        block_loop qseq cs (wrap32 (ref_pos + len)) (wrap32 (qpos + len))
    else if op = BAM_CINS then block_loop qseq cs ref_pos (wrap32 (qpos + len))
    else if op = BAM_CSOFT_CLIP then block_loop qseq cs ref_pos (wrap32 (qpos + len))
    else if op = BAM_CDEL then block_loop qseq cs (wrap32 (ref_pos + len)) qpos
    else if op = BAM_CREF_SKIP then block_loop qseq cs (wrap32 (ref_pos + len)) qpos
    else block_loop qseq cs ref_pos qpos

/-- The blocks of one record: `block_loop` from the initial cursors of
`write_blocks_one`. -/
def blocks_one (b : bam1_t) : List Block :=
  block_loop (bam_get_seq b) b.cigar (wrap32 (b.pos + 1)) 0

/-- Segments appended to a buffer: each one preceded by `;` unless it is the
first of the call. -/
def join_semi (first : Bool) : List (List Char) → List Char
  | [] => []
  | s :: ss => sep first ++ s ++ join_semi false ss

/-! ## The claims' vocabulary: kinds, lengths consumed, blocks by script index -/

/-- Match, equal or diff. -/
def is_block_op (c : Nat) : Bool :=
  decide (bam_cigar_op c = BAM_CMATCH ∨ bam_cigar_op c = BAM_CEQUAL ∨ bam_cigar_op c = BAM_CDIFF)

/-- Match, equal, diff, deletion or reference-skip. -/
def consumes_ref (c : Nat) : Bool :=
  is_block_op c || bam_cigar_op c = BAM_CDEL || bam_cigar_op c = BAM_CREF_SKIP

/-- Match, equal, diff, insertion or soft-clip. -/
def consumes_query (c : Nat) : Bool :=
  is_block_op c || bam_cigar_op c = BAM_CINS || bam_cigar_op c = BAM_CSOFT_CLIP

/-- Sum of the lengths of the entries of `cig` whose kind satisfies `p`. -/
def span (p : Nat → Bool) : List Nat → Int
  | [] => 0
  | c :: cs => (if p c then (bam_cigar_oplen c : Int) else 0) + span p cs

/-- Sum of the lengths of the reference-consuming entries before script index `i`. -/
def ref_before (cig : List Nat) (i : Nat) : Int := span consumes_ref (cig.take i)

/-- Sum of the lengths of the query-consuming entries before script index `i`. -/
def query_before (cig : List Nat) (i : Nat) : Int := span consumes_query (cig.take i)

/-- The block the claims ascribe to the entry `c` at script index `i`. -/
def spec_block (b : bam1_t) (i : Nat) (c : Nat) : Block :=
  { start := b.pos + 1 + ref_before b.cigar i
    stop := b.pos + 1 + ref_before b.cigar i + bam_cigar_oplen c - 1
    text := (List.range (bam_cigar_oplen c)).map
      (fun (j : Nat) => base_at (bam_get_seq b) (query_before b.cigar i + (j : Int))) }

/-- The match/equal/diff entries of the script with their script indices, in order. -/
def block_entries (cig : List Nat) : List (Nat × Nat) :=
  cig.enum.filter (fun p => is_block_op p.2)

/-- The block list the claims describe: the `k`-th block comes from the `k`-th
match/equal/diff entry. -/
def spec_blocks (b : bam1_t) : List Block :=
  (block_entries b.cigar).map (fun p => spec_block b p.1 p.2)

/-- The decoded symbol of the record's query sequence at the 0-based offset `i`:
the query has the `l_qseq` symbols packed at the sequence pointer, so there is
one for `0 ≤ i < l_qseq` only. -/
def query_symbol (b : bam1_t) (i : Int) : Option Char :=
  if 0 ≤ i ∧ i < (b.l_qseq : Int) then some (base_at (bam_get_seq b) i) else none

/-- The 0-based position and every value the 1-based reference cursor takes
during the walk fit a signed 32-bit int (lengths are non-negative, so the
cursor is largest after the last entry). -/
def ref_cursor_fits (b : bam1_t) : Prop :=
  INT_MIN ≤ b.pos ∧ b.pos + 1 + span consumes_ref b.cigar ≤ INT_MAX

/-- Every value the query cursor takes during the walk fits a signed 32-bit int. -/
def query_cursor_fits (b : bam1_t) : Prop :=
  span consumes_query b.cigar ≤ INT_MAX

instance (b : bam1_t) : Decidable (ref_cursor_fits b) := by
  unfold ref_cursor_fits; infer_instance

instance (b : bam1_t) : Decidable (query_cursor_fits b) := by
  unfold query_cursor_fits; infer_instance

/-! ## Reading the buffers back -/

/-- The value of a decimal digit character. -/
def digit_val (c : Char) : Nat := c.toNat - 48

/-- The natural number a string of decimal digits denotes. -/
def parse_dec (s : List Char) : Nat := s.foldl (fun acc c => 10 * acc + digit_val c) 0

/-- The integer a decimal text (with an optional leading `-`) denotes. -/
def katoi (s : List Char) : Int :=
  match s with
  | '-' :: t => -(parse_dec t : Int)
  | t => (parse_dec t : Int)

/-- The blocks as they stand in the output of `write_blocks_one` on cleared
buffers: the `;`-delimited segments of `ks_start`, `ks_end` and `ks_seq`, the
first two read as decimal numbers; no block when the call returns 0. -/
def written_blocks (b : bam1_t) : List Block :=
  let r := write_blocks_one b [] [] []
  if r.1 ≤ 0 then []
  else
    ((r.2.1.splitOn ';').zip ((r.2.2.1.splitOn ';').zip (r.2.2.2.splitOn ';'))).map
      (fun p => { start := katoi p.1, stop := katoi p.2.1, text := p.2.2 })

/-! ## The scan: record filter -/

/-- Function `get_tagi`: the returned value and the flag stored through `ok`,
from the outcome `p` of the tag lookup. -/
def get_tagi (p : Option Int) : Int × Bool :=
  match p with
  | none => (0, false)
  | some v => (v, true)

/-- Function `get_tagZ`: the string of the tag, `none` for a null pointer. -/
def get_tagZ (p : Option (List Char)) : Option (List Char) :=
  match p with
  | none => none
  | some z => some z

/-- The slot `xf_allow[i]` after the fill loop
`for (i = 0; i < nxf && i < 16; ++i) xf_allow[i] = INTEGER(xf_vals_)[i]`.
Slots below `min nxf 16` hold the caller's values; `mem i` stands for what a
read of any other slot finds. -/
def xf_allow (xf_vals : List Int) (mem : Nat → Int) (i : Nat) : Int :=
  if i < 16 then xf_vals.getD i (mem i) else mem i

/-- The membership loop
`for (i = 0; i < nxf; ++i) if (xf == xf_allow[i]) { okxf = 1; break; }`
from index `i` with `k` iterations left: the flag `okxf` and the slots read. -/
def xf_loop (xf : Int) (slot : Nat → Int) : Nat → Nat → Bool × List Nat
  | _, 0 => (false, [])
  | i, k + 1 =>
    if xf = slot i then (true, [i])
    else ((xf_loop xf slot (i + 1) k).1, i :: (xf_loop xf slot (i + 1) k).2)

/-- The three `continue` tests at the head of the `while` body: `true` when the
record goes on to `write_blocks_one`. -/
def record_filter (xf_vals : List Int) (mem : Nat → Int) (b : bam1_t) : Bool :=
  if b.flag &&& (BAM_FUNMAP ||| BAM_FSECONDARY ||| BAM_FSUPPLEMENTARY) ≠ 0 then false
  else if (get_tagi b.xf).2 = false then false
  else if (xf_loop (get_tagi b.xf).1 (xf_allow xf_vals mem) 0 xf_vals.length).1 = false then false
  else if get_tagZ b.CB = none ∨ get_tagZ b.UB = none then false
  else true

/-! ## The scan: streaming loop -/

/-- What the scan does to the secondary destination `out`, in order. -/
inductive SecEvent where
  | hdr_write (ok : Bool)
  | write1 (b : bam1_t) (ok : Bool)
  | warn_write
  | close
  | index_build (rc : Int)
  | warn_index
deriving DecidableEq

/-- The outside world as the scan observes it: the outcome of each htslib /
stdio call. `records` is what `sam_itr_next` delivers before it returns a
negative value; `sam_write1_ok n` tells whether `sam_write1` succeeds when `n`
rows were written before the current one. -/
structure ScanEnv where
  sam_open_in_ok : Bool
  sam_hdr_read_ok : Bool
  sam_index_load_ok : Bool
  tid : Int
  records : List bam1_t
  sam_open_out_ok : Bool
  sam_hdr_write_ok : Bool
  sam_write1_ok : Nat → Bool
  fopen_ok : Bool
  index_build_rc : Int
  mem : Nat → Int

/-- The variables that live across iterations of the `while` loop: the bytes
written to `fp`, `n_reads` (a C `long`, not bounded here), whether `out` is
non-null, the three reused buffers, the events on `out`, and the number of
records pulled. -/
structure ScanState where
  fp : List Char
  n_reads : Nat
  out : Bool
  ks_start : List Char
  ks_end : List Char
  ks_seq : List Char
  log : List SecEvent
  pulled : Nat

/-- The row written by the `fputs` / `fputc` / `fwrite` / `fprintf` sequence. -/
def tsv_row (CB UB ks_start ks_end ks_seq : List Char) (nblk : Int) : List Char :=
  CB ++ ['\t'] ++ UB ++ ['\t'] ++ ks_start ++ ['\t'] ++ ks_end ++ ['\t'] ++ ks_seq ++ ['\t']
    ++ kputw nblk ++ ['\n']

/-- The statement `if (out) if (sam_write1(out, hdr, b) < 0) { warning; sam_close; out = NULL; }`. -/
def secondary_write (env : ScanEnv) (st : ScanState) (b : bam1_t) : ScanState :=
  if st.out then
    if env.sam_write1_ok st.n_reads then
      { st with log := st.log ++ [SecEvent.write1 b true] }
    else
      { st with
        log := st.log ++ [SecEvent.write1 b false, SecEvent.warn_write, SecEvent.close]
        out := false }
  else st

/-- One iteration of `while (sam_itr_next(in, itr, b) >= 0)` on the record `b`. -/
def scan_step (xf_vals : List Int) (env : ScanEnv) (st : ScanState) (b : bam1_t) : ScanState :=
  let st0 := { st with pulled := st.pulled + 1 }
  if record_filter xf_vals env.mem b = false then st0
  else
    let r := write_blocks_one b [] [] []
    let st1 := { st0 with ks_start := r.2.1, ks_end := r.2.2.1, ks_seq := r.2.2.2 }
    if r.1 ≤ 0 then st1
    else
      let st2 := { st1 with
        fp := st1.fp ++ tsv_row ((get_tagZ b.CB).getD []) ((get_tagZ b.UB).getD [])
          st1.ks_start st1.ks_end st1.ks_seq r.1 }
      let st3 := secondary_write env st2 b
      { st3 with n_reads := st3.n_reads + 1 }

/-- The whole `while` loop over the records the iterator delivers. -/
def scan_loop (xf_vals : List Int) (env : ScanEnv) : List bam1_t → ScanState → ScanState
  | [], st => st
  | b :: bs, st => scan_loop xf_vals env bs (scan_step xf_vals env st b)

/-! ## The scan: setup, finalization, return value -/

/-- The `error(...)` exits of the entry point. -/
inductive ScanError where
  | open_input
  | read_header
  | no_index
  | unknown_contig
  | open_out_bam
  | open_tsv
deriving DecidableEq

/-- What one call of the entry point leaves behind: the error raised (if any),
the bytes written to the row file, the returned integer vector (empty when the
call ended in `error`), the events on the secondary destination and the
number of records pulled from the iterator. -/
structure Outcome where
  error : Option ScanError
  tsv : List Char
  ans : List Int
  log : List SecEvent
  pulled : Nat

/-- The header line written by the `fputs` after `fopen`. -/
def tsv_header : List Char := "CB\tUMI\tblock_start\tblock_end\tblock_seq\tnum_blocks\n".toList

/-- C library `strrchr(s, c)`: the text of `s` from the last `c` on. -/
def strrchr : List Char → Char → Option (List Char)
  | [], _ => none
  | x :: xs, c =>
    match strrchr xs c with
    | some r => some r
    | none => if x = c then some (x :: xs) else none

/-- The block `if (out) { sam_close(out); ... sam_index_build3 ... }` after the loop. -/
def finalize_out (out_bam : List Char) (env : ScanEnv) (st : ScanState) : List SecEvent :=
  if st.out then
    st.log ++ [SecEvent.close] ++
      (if strrchr out_bam '.' = some ".bam".toList then
        [SecEvent.index_build env.index_build_rc] ++
          (if env.index_build_rc ≠ 0 then [SecEvent.warn_index] else [])
      else [])
  else st.log

/-- The state at the first `sam_itr_next`: header line written, `n_reads = 0`,
empty buffers; `out` and the log as the setup left them. -/
def scan_init (out : Bool) (log : List SecEvent) : ScanState :=
  { fp := tsv_header, n_reads := 0, out := out, ks_start := [], ks_end := [], ks_seq := [],
    log := log, pulled := 0 }

/-- An `error(...)` exit: nothing written to the row file, nothing returned. -/
def abort (e : ScanError) (log : List SecEvent) : Outcome :=
  { error := some e, tsv := [], ans := [], log := log, pulled := 0 }

/-- Streaming, finalization and the returned vector, from the state at the
first `sam_itr_next`. -/
def scan_run (out_bam : List Char) (xf_vals : List Int) (env : ScanEnv) (st : ScanState) :
    Outcome :=
  let fin := scan_loop xf_vals env env.records st
  { error := none, tsv := fin.fp, ans := [wrap32 fin.n_reads],
    log := finalize_out out_bam env fin, pulled := fin.pulled }

/-- The part of the entry point before the header line is written: each
`error(...)` exit with the events on `out` so far, or else whether `out` is
non-null when streaming starts, with the events so far. -/
def scan_setup (out_bam : List Char) (env : ScanEnv) :
    Except (ScanError × List SecEvent) (Bool × List SecEvent) :=
  if env.sam_open_in_ok = false then .error (ScanError.open_input, [])
  else if env.sam_hdr_read_ok = false then .error (ScanError.read_header, [])
  else if env.sam_index_load_ok = false then .error (ScanError.no_index, [])
  else if env.tid < 0 then .error (ScanError.unknown_contig, [])
  else if out_bam ≠ [] then
    if env.sam_open_out_ok = false then .error (ScanError.open_out_bam, [])
    else if env.sam_hdr_write_ok = false then
      if env.fopen_ok = false then
        .error (ScanError.open_tsv, [SecEvent.hdr_write false, SecEvent.close])
      else .ok (false, [SecEvent.hdr_write false, SecEvent.close])
    else
      if env.fopen_ok = false then
        .error (ScanError.open_tsv, [SecEvent.hdr_write true, SecEvent.close])
      else .ok (true, [SecEvent.hdr_write true])
  else
    if env.fopen_ok = false then .error (ScanError.open_tsv, [])
    else .ok (false, [])

/-- The entry point `_exonBlocks_scan_bam_blocks_hts`, for the output path
`out_bam` and the allow list `xf_vals`. -/
def _exonBlocks_scan_bam_blocks_hts (out_bam : List Char) (xf_vals : List Int)
    (env : ScanEnv) : Outcome :=
  match scan_setup out_bam env with
  | .error (e, log) => abort e log
  | .ok (out, log) => scan_run out_bam xf_vals env (scan_init out log)

/-! ## Derived notions for the scan -/

/-- The record reaches the row-writing code of the loop body: it passes the
filter and `write_blocks_one` returns a positive count. -/
def emits (xf_vals : List Int) (mem : Nat → Int) (b : bam1_t) : Bool :=
  record_filter xf_vals mem b && decide (0 < (write_blocks_one b [] [] []).1)

/-- The row the loop body writes for a record that reaches the row-writing code. -/
def row_of (b : bam1_t) : List Char :=
  tsv_row ((get_tagZ b.CB).getD []) ((get_tagZ b.UB).getD [])
    (write_blocks_one b [] [] []).2.1 (write_blocks_one b [] [] []).2.2.1
    (write_blocks_one b [] [] []).2.2.2 (write_blocks_one b [] [] []).1

/-- Every setup step succeeded: the header line gets written. -/
def setup_ok (out_bam : List Char) (env : ScanEnv) : Prop :=
  env.sam_open_in_ok = true ∧ env.sam_hdr_read_ok = true ∧ env.sam_index_load_ok = true ∧
    0 ≤ env.tid ∧ (out_bam ≠ [] → env.sam_open_out_ok = true) ∧ env.fopen_ok = true

instance (out_bam : List Char) (env : ScanEnv) : Decidable (setup_ok out_bam env) := by
  unfold setup_ok; infer_instance

/-- The world `env` with another behaviour of the secondary destination:
opening it succeeds, its header write succeeds iff `hdr`, its record writes
succeed as `w` tells, and its index build returns `rc`. -/
def with_secondary (env : ScanEnv) (hdr : Bool) (w : Nat → Bool) (rc : Int) : ScanEnv :=
  { env with sam_open_out_ok := true, sam_hdr_write_ok := hdr, sam_write1_ok := w,
             index_build_rc := rc }

/-! ## Sample records -/

/-- The aux data `CB:Z:AAAC-1`, `UB:Z:GGT`, `xf:C:25` as it lies in a record:
tag, type letter, value. -/
def aux_sample : List Nat :=
  [67, 66, 90, 65, 65, 65, 67, 45, 49, 0, 85, 66, 90, 71, 71, 84, 0, 120, 102, 67, 25]

/-- What follows the sequence of a sample record with `n` bases: `n` quality
bytes, then `aux_sample`. -/
def tail_sample (n : Nat) : List Nat := List.replicate n 30 ++ aux_sample

/-- A record at 0-based position 100 with CIGAR `3M2D2M`, five bases, all
tags present and no filter flag set. -/
def rec_3M2D2M : bam1_t :=
  { pos := 100, flag := 0,
    cigar := [bam_cigar_gen 3 BAM_CMATCH, bam_cigar_gen 2 BAM_CDEL, bam_cigar_gen 2 BAM_CMATCH],
    l_qseq := 5, seq := [18, 72, 240],
    xf := some 25, CB := some "AAAC-1".toList, UB := some "GGT".toList,
    tail := tail_sample 5 }

/-- A record at 0-based position 0 with CIGAR `0M1M` and one base. -/
def rec_0M1M : bam1_t :=
  { pos := 0, flag := 0,
    cigar := [bam_cigar_gen 0 BAM_CMATCH, bam_cigar_gen 1 BAM_CMATCH],
    l_qseq := 1, seq := [32],
    xf := some 25, CB := some "AAAC-1".toList, UB := some "GGT".toList,
    tail := tail_sample 1 }

/-- A record at 0-based position 2147483646 with CIGAR `1M1M` and two bases. -/
def rec_1M1M_edge : bam1_t :=
  { pos := 2147483646, flag := 0,
    cigar := [bam_cigar_gen 1 BAM_CMATCH, bam_cigar_gen 1 BAM_CMATCH],
    l_qseq := 2, seq := [36],
    xf := some 25, CB := some "AAAC-1".toList, UB := some "GGT".toList,
    tail := tail_sample 2 }

/-- A record at 0-based position 2147483646 with CIGAR `2M` and two bases. -/
def rec_2M_edge : bam1_t :=
  { pos := 2147483646, flag := 0,
    cigar := [bam_cigar_gen 2 BAM_CMATCH],
    l_qseq := 2, seq := [36],
    xf := some 25, CB := some "AAAC-1".toList, UB := some "GGT".toList,
    tail := tail_sample 2 }

/-- A record whose CIGAR `5S3N2I4D1H1P` has no match/equal/diff entry. -/
def rec_no_block : bam1_t :=
  { pos := 100, flag := 0,
    cigar := [bam_cigar_gen 5 BAM_CSOFT_CLIP, bam_cigar_gen 3 BAM_CREF_SKIP,
      bam_cigar_gen 2 BAM_CINS, bam_cigar_gen 4 BAM_CDEL, bam_cigar_gen 1 BAM_CHARD_CLIP,
      bam_cigar_gen 1 BAM_CPAD],
    l_qseq := 7, seq := [18, 72, 18, 64],
    xf := some 25, CB := some "AAAC-1".toList, UB := some "GGT".toList,
    tail := tail_sample 7 }

/-- A record at 0-based position 100 with CIGAR `10M` and ten bases. -/
def rec_10M : bam1_t :=
  { pos := 100, flag := 0,
    cigar := [bam_cigar_gen 10 BAM_CMATCH],
    l_qseq := 10, seq := [18, 72, 241, 36, 143],
    xf := some 25, CB := some "AAAC-1".toList, UB := some "GGT".toList,
    tail := tail_sample 10 }

/-- An outside world in which every call succeeds and no record is delivered. -/
def env_plain : ScanEnv :=
  { sam_open_in_ok := true, sam_hdr_read_ok := true, sam_index_load_ok := true, tid := 0,
    records := [], sam_open_out_ok := true, sam_hdr_write_ok := true,
    sam_write1_ok := fun _ => true, fopen_ok := true, index_build_rc := 0, mem := fun _ => 0 }

/-- The world of `env_plain` in which the iterator delivers 2147483648 copies of
`rec_3M2D2M`. -/
def env_2G : ScanEnv :=
  { env_plain with records := List.replicate 2147483648 rec_3M2D2M }

/-- The world of `env_plain` in which the iterator delivers four records, the
third of them without blocks, and the second call of `sam_write1` fails. -/
def env_fail2 : ScanEnv :=
  { env_plain with
    records := [rec_3M2D2M, rec_10M, rec_no_block, rec_0M1M]
    sam_write1_ok := fun n => n != 1 }

/-- The world of `env_fail2` in which the header write of the secondary
destination fails. -/
def env_hdr_fail : ScanEnv :=
  { env_fail2 with sam_hdr_write_ok := false }

/-- The BAM nucleotide alphabet of the claims: the character of each 4-bit code. -/
def bam_alphabet : List Char := "=ACMGRSVTWYHKDBN".toList

/-- A record at 0-based position 0 with CIGAR `5M2D5M` and the ten bases of
codes 1, 2, 4, 8, 15, 1, 2, 4, 8, 15. -/
def rec_5M2D5M : bam1_t :=
  { pos := 0, flag := 0,
    cigar := [bam_cigar_gen 5 BAM_CMATCH, bam_cigar_gen 2 BAM_CDEL, bam_cigar_gen 5 BAM_CMATCH],
    l_qseq := 10, seq := [18, 72, 241, 36, 143],
    xf := some 25, CB := some "AAAC-1".toList, UB := some "GGT".toList,
    tail := tail_sample 10 }

/-- The world of `env_fail2` in which the row file cannot be opened. -/
def env_no_tsv : ScanEnv :=
  { env_fail2 with fopen_ok := false }

/-- The world `env` in which the iterator delivers the stream `rs`. -/
def with_records (env : ScanEnv) (rs : List bam1_t) : ScanEnv :=
  { env with records := rs }

/-- The number of rows the scan writes for the stream `rs`: the value of the
counter `n_reads` after the loop. -/
def pass_count (xf_vals : List Int) (mem : Nat → Int) (rs : List bam1_t) : Nat :=
  (rs.filter (emits xf_vals mem)).length

/-- The rows the scan writes for the stream `rs`, after the header line. -/
def rows_of (xf_vals : List Int) (mem : Nat → Int) (rs : List bam1_t) : List Char :=
  ((rs.filter (emits xf_vals mem)).map row_of).flatten

/-- A stream of 1073741824 copies of `rec_3M2D2M`. -/
def stream_1G : List bam1_t := List.replicate 1073741824 rec_3M2D2M

/-- Hard-clip, pad or any other kind that is none of match, equal, diff,
insertion, soft-clip, deletion, reference-skip. -/
def is_noop (c : Nat) : Bool := !consumes_ref c && !consumes_query c

/-- The record `b` with the CIGAR `cig`. -/
def with_cigar (b : bam1_t) (cig : List Nat) : bam1_t := { b with cigar := cig }

/-- The CIGAR `4H3M1P2D7P2M9H` followed by an entry of the unassigned kind 12:
`3M2D2M` with hard-clip, pad and unknown entries put in. -/
def cigar_padded : List Nat :=
  [bam_cigar_gen 4 BAM_CHARD_CLIP, bam_cigar_gen 3 BAM_CMATCH, bam_cigar_gen 1 BAM_CPAD,
    bam_cigar_gen 2 BAM_CDEL, bam_cigar_gen 7 BAM_CPAD, bam_cigar_gen 2 BAM_CMATCH,
    bam_cigar_gen 9 BAM_CHARD_CLIP, bam_cigar_gen 1000 12]

/-- The event is a call of `sam_index_build3`. -/
def is_index_build (e : SecEvent) : Bool :=
  match e with
  | SecEvent.index_build _ => true
  | _ => false

/-- The world `env` in which the index build returns `rc`. -/
def with_index_rc (env : ScanEnv) (rc : Int) : ScanEnv :=
  { env with index_build_rc := rc }

/-- The world of `env_plain` in which the iterator delivers four records, the
third of them without blocks, and every call succeeds. -/
def env_four : ScanEnv :=
  with_records env_plain [rec_3M2D2M, rec_10M, rec_no_block, rec_0M1M]

/-- An allow list of 17 values. -/
def xf_17 : List Int := [1, 2, 3, 4, 5, 6, 7, 8, 9, 10, 11, 12, 13, 14, 15, 16, 17]

/-- The record `rec_3M2D2M` with the value `v` (a byte) of its tag `xf`, in the
tag and in the aux data. -/
def rec_xf (v : Int) : bam1_t :=
  { rec_3M2D2M with
    xf := some v
    tail := List.replicate 5 30 ++ aux_sample.take 20 ++ [v.toNat] }

/-- The query offsets at which the loop of `write_blocks_one` calls `base_at`,
in order, from the query cursor `qpos`: `qpos + j` for `j < len` at each
match/equal/diff entry. -/
def base_at_offsets : List Nat → Int → List Int
  | [], _ => []
  | c :: cs, qpos =>
    (if is_block_op c then
      (List.range (bam_cigar_oplen c)).map (fun (j : Nat) => wrap32 (qpos + (j : Int)))
    else []) ++
    base_at_offsets cs
      (if consumes_query c then wrap32 (qpos + (bam_cigar_oplen c : Int)) else qpos)

/-- A record with CIGAR `4M` and no stored sequence (SEQ `*`, `l_qseq = 0`, no
quality bytes): the sequence pointer lies at the aux data. -/
def rec_star_4M : bam1_t :=
  { pos := 0, flag := 0,
    cigar := [bam_cigar_gen 4 BAM_CMATCH],
    l_qseq := 0, seq := [],
    xf := some 25, CB := some "AAAC-1".toList, UB := some "GGT".toList,
    tail := tail_sample 0 }

/-! ## Lemmas: arithmetic and rendering -/

theorem wrap32_of_fits (x : Int) (h1 : INT_MIN ≤ x) (h2 : x ≤ INT_MAX) : wrap32 x = x := by
  unfold INT_MIN at h1; unfold INT_MAX at h2; unfold wrap32; omega

theorem oplen_lt (c : Nat) : bam_cigar_oplen c < 268435456 := by
  unfold bam_cigar_oplen; omega

theorem span_nonneg (p : Nat → Bool) (l : List Nat) : 0 ≤ span p l := by
  induction l with
  | nil => simp [span]
  | cons c cs ih => unfold span; split <;> omega

theorem span_append (p : Nat → Bool) (l₁ l₂ : List Nat) :
    span p (l₁ ++ l₂) = span p l₁ + span p l₂ := by
  induction l₁ with
  | nil => simp [span]
  | cons c cs ih => simp [span, ih]; omega

theorem join_semi_false_cons (s : List Char) (ss : List (List Char)) :
    join_semi false (s :: ss) = ';' :: (s ++ join_semi false ss) := by
  simp [join_semi, sep]

theorem join_semi_true_eq_intercalate (segs : List (List Char)) :
    join_semi true segs = [';'].intercalate segs := by
  cases segs with
  | nil => simp [join_semi, List.intercalate]
  | cons s ss =>
    have h : ∀ (t : List Char) (l : List (List Char)),
        t ++ join_semi false l = [';'].intercalate (t :: l) := by
      intro t l
      induction l generalizing t with
      | nil => simp [join_semi, List.intercalate]
      | cons u us ih =>
        rw [join_semi_false_cons, ih u]
        simp [List.intercalate, List.intersperse]
    simpa [join_semi, sep] using h s ss

theorem toDigitsCore_all (P : Char → Prop) (hP : ∀ k, k < 10 → P (Nat.digitChar k))
    (fuel n : Nat) (ds : List Char) (h : ∀ c ∈ ds, P c) :
    ∀ c ∈ Nat.toDigitsCore 10 fuel n ds, P c := by
  induction fuel generalizing n ds with
  | zero => simpa [Nat.toDigitsCore] using h
  | succ f ih =>
    have hd : ∀ c ∈ Nat.digitChar (n % 10) :: ds, P c := by
      intro c hc
      rcases List.mem_cons.1 hc with rfl | hc
      · exact hP _ (Nat.mod_lt _ (by decide))
      · exact h c hc
    unfold Nat.toDigitsCore
    simp only []
    split_ifs
    · exact hd
    · exact ih _ _ hd

theorem toDigits_all (P : Char → Prop) (hP : ∀ k, k < 10 → P (Nat.digitChar k)) (n : Nat) :
    ∀ c ∈ Nat.toDigits 10 n, P c :=
  toDigitsCore_all P hP (n + 1) n [] (by simp)

theorem semi_not_mem_kputw (c : Int) : ';' ∉ kputw c := by
  have h := toDigits_all (fun c => c ≠ ';') (by intro k hk; interval_cases k <;> decide)
    c.natAbs
  intro hm
  unfold kputw at hm
  split_ifs at hm
  · rcases List.mem_cons.1 hm with h0 | h0
    · exact absurd h0 (by decide)
    · exact h _ h0 rfl
  · exact h _ hm rfl

theorem digit_val_digitChar (k : Nat) (h : k < 10) : digit_val (Nat.digitChar k) = k := by
  interval_cases k <;> decide

theorem parse_toDigitsCore (fuel n : Nat) (ds : List Char) (h : n < fuel) :
    List.foldl (fun acc c => 10 * acc + digit_val c) 0 (Nat.toDigitsCore 10 fuel n ds) =
      List.foldl (fun acc c => 10 * acc + digit_val c) n ds := by
  induction fuel generalizing n ds with
  | zero => omega
  | succ f ih =>
    have hv := digit_val_digitChar (n % 10) (Nat.mod_lt _ (by decide))
    unfold Nat.toDigitsCore
    simp only []
    split_ifs with h0
    · simp only [List.foldl_cons, hv]
      congr 1; omega
    · rw [ih _ _ (by omega)]
      simp only [List.foldl_cons, hv]
      congr 1; omega

theorem parse_dec_toDigits (n : Nat) : parse_dec (Nat.toDigits 10 n) = n := by
  unfold parse_dec Nat.toDigits
  rw [parse_toDigitsCore _ _ _ (by omega)]
  rfl

theorem toDigitsCore_length_ge (fuel n : Nat) (ds : List Char) :
    ds.length ≤ (Nat.toDigitsCore 10 fuel n ds).length := by
  induction fuel generalizing n ds with
  | zero => simp [Nat.toDigitsCore]
  | succ f ih =>
    unfold Nat.toDigitsCore
    simp only []
    split_ifs with h0
    · simp
    · have := ih (n / 10) (Nat.digitChar (n % 10) :: ds)
      simp only [List.length_cons] at this
      omega

theorem toDigits_ne_nil (n : Nat) : Nat.toDigits 10 n ≠ [] := by
  intro h
  have hl := congrArg List.length h
  unfold Nat.toDigits Nat.toDigitsCore at hl
  simp only [] at hl
  split_ifs at hl with h0
  · simp at hl
  · have := toDigitsCore_length_ge n (n / 10) [Nat.digitChar (n % 10)]
    simp only [List.length_cons, List.length_nil] at this hl
    omega

theorem katoi_kputw (c : Int) : katoi (kputw c) = c := by
  have hd := toDigits_all (fun c => c ≠ '-') (by intro k hk; interval_cases k <;> decide)
    c.natAbs
  unfold kputw
  split_ifs with h
  · simp only [katoi, parse_dec_toDigits]
    omega
  · cases hl : Nat.toDigits 10 c.natAbs with
    | nil => exact absurd hl (toDigits_ne_nil _)
    | cons x xs =>
      have hx : x ≠ '-' := hd x (by simp [hl])
      have hp := parse_dec_toDigits c.natAbs
      rw [hl] at hp
      unfold katoi
      split
      · rename_i t heq
        simp only [List.cons.injEq] at heq
        exact absurd heq.1 hx
      · rw [hp]; omega

theorem nt16_getD_ne_semi (k : Nat) : nt16_table.getD k '=' ≠ ';' := by
  by_cases hk : k < 16
  · interval_cases k <;> decide
  · have hl : nt16_table.length ≤ k := by
      have : nt16_table.length = 16 := by decide
      omega
    rw [List.getD_eq_default _ _ hl]
    decide

theorem semi_not_mem_query_slice (qseq : List Nat) (qpos : Int) (len : Nat) :
    ';' ∉ query_slice qseq qpos len := by
  unfold query_slice
  intro hm
  rcases List.mem_map.1 hm with ⟨j, _, hj⟩
  exact nt16_getD_ne_semi _ hj

/-- The buffers and counters of `cigar_loop` in terms of `block_loop`. -/
theorem cigar_loop_eq (qseq : List Nat) (l : List Nat) (st : WState) :
    cigar_loop qseq l st =
      { ref_pos := (cigar_loop qseq l st).ref_pos
        qpos := (cigar_loop qseq l st).qpos
        nblocks := st.nblocks + (block_loop qseq l st.ref_pos st.qpos).length
        first := st.first && (block_loop qseq l st.ref_pos st.qpos).isEmpty
        ks_start := st.ks_start ++
          join_semi st.first ((block_loop qseq l st.ref_pos st.qpos).map (fun k => kputw k.start))
        ks_end := st.ks_end ++
          join_semi st.first ((block_loop qseq l st.ref_pos st.qpos).map (fun k => kputw k.stop))
        ks_seq := st.ks_seq ++
          join_semi st.first ((block_loop qseq l st.ref_pos st.qpos).map (fun k => k.text)) } := by
  induction l generalizing st with
  | nil => cases st; simp [cigar_loop, block_loop, join_semi]
  | cons c cs ih =>
    rw [cigar_loop, ih]
    simp only [cigar_step, block_loop]
    split_ifs <;> simp [join_semi, List.append_assoc]; omega

/-! ## Lemmas: the loop against the claims' block list -/

theorem query_slice_of_fits (qseq : List Nat) (q : Int) (len : Nat) (h0 : 0 ≤ q)
    (h1 : q + len ≤ INT_MAX) :
    query_slice qseq q len =
      (List.range len).map (fun (j : Nat) => base_at qseq (q + (j : Int))) := by
  unfold query_slice
  apply List.map_congr_left
  intro j hj
  have hj' : j < len := List.mem_range.1 hj
  rw [wrap32_of_fits] <;> unfold INT_MIN INT_MAX at * <;> omega

theorem block_loop_spec (b : bam1_t) (hr : ref_cursor_fits b) (hq : query_cursor_fits b)
    (l pre : List Nat) (hcig : b.cigar = pre ++ l) :
    block_loop (bam_get_seq b) l (b.pos + 1 + span consumes_ref pre) (span consumes_query pre) =
      ((l.enumFrom pre.length).filter (fun p => is_block_op p.2)).map
        (fun p => spec_block b p.1 p.2) := by
  induction l generalizing pre with
  | nil => simp [block_loop]
  | cons c t ih =>
    have e1 : span consumes_ref b.cigar = span consumes_ref pre +
        ((if consumes_ref c then (bam_cigar_oplen c : Int) else 0) + span consumes_ref t) := by
      rw [hcig, span_append]; simp [span]
    have e2 : span consumes_query b.cigar = span consumes_query pre +
        ((if consumes_query c then (bam_cigar_oplen c : Int) else 0) + span consumes_query t) := by
      rw [hcig, span_append]; simp [span]
    have n1 := span_nonneg consumes_ref pre
    have n2 := span_nonneg consumes_ref t
    have n3 := span_nonneg consumes_query pre
    have n4 := span_nonneg consumes_query t
    have hl := oplen_lt c
    have ih' := ih (pre ++ [c]) (by simp [hcig])
    rw [span_append, span_append] at ih'
    simp only [span, add_zero, List.length_append, List.length_singleton] at ih'
    have hb1 : ref_before b.cigar pre.length = span consumes_ref pre := by
      simp [ref_before, hcig]
    have hb2 : query_before b.cigar pre.length = span consumes_query pre := by
      simp [query_before, hcig]
    obtain ⟨hr1, hr2⟩ := hr
    unfold query_cursor_fits at hq
    unfold INT_MIN at hr1
    unfold INT_MAX at hr2 hq
    by_cases h1 : bam_cigar_op c = BAM_CMATCH ∨ bam_cigar_op c = BAM_CEQUAL ∨
        bam_cigar_op c = BAM_CDIFF
    · have hb : is_block_op c = true := by simpa [is_block_op] using h1
      have hcr : consumes_ref c = true := by simp [consumes_ref, hb]
      have hcq : consumes_query c = true := by simp [consumes_query, hb]
      simp only [hcr, hcq, if_true] at e1 e2 ih'
      have w1 : wrap32 (b.pos + 1 + span consumes_ref pre + (bam_cigar_oplen c : Int) - 1) =
          b.pos + 1 + span consumes_ref pre + (bam_cigar_oplen c : Int) - 1 :=
        wrap32_of_fits _ (by unfold INT_MIN; omega) (by unfold INT_MAX; omega)
      have w2 : wrap32 (b.pos + 1 + span consumes_ref pre + (bam_cigar_oplen c : Int)) =
          b.pos + 1 + (span consumes_ref pre + (bam_cigar_oplen c : Int)) := by
        rw [wrap32_of_fits _ (by unfold INT_MIN; omega) (by unfold INT_MAX; omega)]; ring
      have w3 : wrap32 (span consumes_query pre + (bam_cigar_oplen c : Int)) =
          span consumes_query pre + (bam_cigar_oplen c : Int) :=
        wrap32_of_fits _ (by unfold INT_MIN; omega) (by unfold INT_MAX; omega)
      have w4 := query_slice_of_fits (bam_get_seq b) (span consumes_query pre) (bam_cigar_oplen c) n3
        (by unfold INT_MAX; omega)
      simp only [block_loop, if_pos h1, List.enumFrom_cons, List.filter_cons, hb, if_true,
        List.map_cons, w1, w2, w3, w4, ih', spec_block, hb1, hb2]
    · have hb : is_block_op c = false := by simpa [is_block_op] using h1
      by_cases h2 : bam_cigar_op c = BAM_CINS
      · have hcr : consumes_ref c = false := by
          simp [consumes_ref, hb, h2, BAM_CINS, BAM_CDEL, BAM_CREF_SKIP]
        have hcq : consumes_query c = true := by simp [consumes_query, h2]
        simp [hcr, hcq] at e1 e2 ih'
        have w3 : wrap32 (span consumes_query pre + (bam_cigar_oplen c : Int)) =
            span consumes_query pre + (bam_cigar_oplen c : Int) :=
          wrap32_of_fits _ (by unfold INT_MIN; omega) (by unfold INT_MAX; omega)
        simp [block_loop, if_neg h1, if_pos h2, List.enumFrom_cons, List.filter_cons, hb, w3,
          ih']
      · by_cases h3 : bam_cigar_op c = BAM_CSOFT_CLIP
        · have hcr : consumes_ref c = false := by
            simp [consumes_ref, hb, h3, BAM_CSOFT_CLIP, BAM_CDEL, BAM_CREF_SKIP]
          have hcq : consumes_query c = true := by simp [consumes_query, h3]
          simp [hcr, hcq] at e1 e2 ih'
          have w3 : wrap32 (span consumes_query pre + (bam_cigar_oplen c : Int)) =
              span consumes_query pre + (bam_cigar_oplen c : Int) :=
            wrap32_of_fits _ (by unfold INT_MIN; omega) (by unfold INT_MAX; omega)
          simp [block_loop, if_neg h1, if_neg h2, if_pos h3, List.enumFrom_cons,
            List.filter_cons, hb, w3, ih']
        · have hcq : consumes_query c = false := by simp [consumes_query, hb, h2, h3]
          by_cases h4 : bam_cigar_op c = BAM_CDEL
          · have hcr : consumes_ref c = true := by simp [consumes_ref, h4]
            simp [hcr, hcq] at e1 e2 ih'
            have w2 : wrap32 (b.pos + 1 + span consumes_ref pre + (bam_cigar_oplen c : Int)) =
                b.pos + 1 + (span consumes_ref pre + (bam_cigar_oplen c : Int)) := by
              rw [wrap32_of_fits _ (by unfold INT_MIN; omega) (by unfold INT_MAX; omega)]; ring
            simp [block_loop, if_neg h1, if_neg h2, if_neg h3, if_pos h4, List.enumFrom_cons,
              List.filter_cons, hb, w2, ih']
          · by_cases h5 : bam_cigar_op c = BAM_CREF_SKIP
            · have hcr : consumes_ref c = true := by simp [consumes_ref, h5]
              simp [hcr, hcq] at e1 e2 ih'
              have w2 : wrap32 (b.pos + 1 + span consumes_ref pre + (bam_cigar_oplen c : Int)) =
                  b.pos + 1 + (span consumes_ref pre + (bam_cigar_oplen c : Int)) := by
                rw [wrap32_of_fits _ (by unfold INT_MIN; omega) (by unfold INT_MAX; omega)]; ring
              simp [block_loop, if_neg h1, if_neg h2, if_neg h3, if_neg h4, if_pos h5,
                List.enumFrom_cons, List.filter_cons, hb, w2, ih']
            · have hcr : consumes_ref c = false := by simp [consumes_ref, hb, h4, h5]
              simp [hcr, hcq] at e1 e2 ih'
              simp [block_loop, if_neg h1, if_neg h2, if_neg h3, if_neg h4, if_neg h5,
                List.enumFrom_cons, List.filter_cons, hb, ih']

/-! ## Lemmas: the buffers of `write_blocks_one` and the blocks read back -/

theorem write_blocks_one_eq (b : bam1_t) (s e q : List Char) :
    write_blocks_one b s e q =
      (((blocks_one b).length : Int),
        s ++ join_semi true ((blocks_one b).map (fun k => kputw k.start)),
        e ++ join_semi true ((blocks_one b).map (fun k => kputw k.stop)),
        q ++ join_semi true ((blocks_one b).map (fun k => k.text))) := by
  unfold write_blocks_one blocks_one
  simp only []
  rw [cigar_loop_eq]
  simp

theorem semi_not_mem_block_text (qseq : List Nat) (l : List Nat) (r q : Int) :
    ∀ x ∈ block_loop qseq l r q, ';' ∉ x.text := by
  induction l generalizing r q with
  | nil => simp [block_loop]
  | cons c cs ih =>
    simp only [block_loop]
    split_ifs
    · intro x hx
      rcases List.mem_cons.1 hx with rfl | hx
      · exact semi_not_mem_query_slice _ _ _
      · exact ih _ _ x hx
    all_goals exact ih _ _

theorem zip3_map (l : List Block) :
    (((l.map (fun k => kputw k.start)).zip
        ((l.map (fun k => kputw k.stop)).zip (l.map (fun k => k.text)))).map
      (fun p => ({ start := katoi p.1, stop := katoi p.2.1, text := p.2.2 } : Block))) = l := by
  induction l with
  | nil => rfl
  | cons x xs ih =>
    simp only [List.map_cons, List.zip_cons_cons, ih, katoi_kputw]

theorem written_blocks_eq (b : bam1_t) : written_blocks b = blocks_one b := by
  unfold written_blocks
  simp only [write_blocks_one_eq, List.nil_append, join_semi_true_eq_intercalate]
  by_cases h : blocks_one b = []
  · simp [h]
  · have hlen : ¬ (((blocks_one b).length : Int) ≤ 0) := by
      have := List.length_pos.2 h
      omega
    rw [if_neg hlen]
    rw [List.splitOn_intercalate _ _ (by
        intro l hl
        rcases List.mem_map.1 hl with ⟨k, _, rfl⟩
        exact semi_not_mem_kputw _) (by simpa using h)]
    rw [List.splitOn_intercalate _ _ (by
        intro l hl
        rcases List.mem_map.1 hl with ⟨k, _, rfl⟩
        exact semi_not_mem_kputw _) (by simpa using h)]
    rw [List.splitOn_intercalate _ _ (by
        intro l hl
        rcases List.mem_map.1 hl with ⟨k, hk, rfl⟩
        exact semi_not_mem_block_text _ _ _ _ k hk) (by simpa using h)]
    exact zip3_map _

/-! ## C1: the two-cursor walk -/

theorem blocks_one_eq_spec (b : bam1_t) (hr : ref_cursor_fits b) (hq : query_cursor_fits b) :
    blocks_one b = spec_blocks b := by
  have h := block_loop_spec b hr hq b.cigar [] (by simp)
  have w : wrap32 (b.pos + 1) = b.pos + 1 :=
    wrap32_of_fits _ (by have := hr.1; unfold INT_MIN at *; omega)
      (by have := hr.2; have := span_nonneg consumes_ref b.cigar; unfold INT_MAX at *; omega)
  simp only [span, add_zero, List.length_nil] at h
  unfold blocks_one spec_blocks block_entries List.enum
  rw [w, h]

/-! ## Lemma: reads inside the stored sequence -/

theorem base_at_stored (s t : List Nat) (i : Int) (h0 : 0 ≤ i)
    (h : (i / 2).toNat < s.length) : base_at (s ++ t) i = base_at s i := by
  have hb : seq_byte (s ++ t) (i / 2) = seq_byte s (i / 2) := by
    unfold seq_byte
    have : 0 ≤ i / 2 := by omega
    rw [if_pos this, if_pos this, List.getD_append _ _ _ _ h]
  unfold base_at bam_seqi
  rw [hb]

theorem block_loop_cons (qseq : List Nat) (c : Nat) (cs : List Nat) (r q : Int) :
    block_loop qseq (c :: cs) r q =
      (if is_block_op c then
        [{ start := r, stop := wrap32 (r + (bam_cigar_oplen c : Int) - 1),
           text := query_slice qseq q (bam_cigar_oplen c) }]
      else []) ++
      block_loop qseq cs
        (if consumes_ref c then wrap32 (r + (bam_cigar_oplen c : Int)) else r)
        (if consumes_query c then wrap32 (q + (bam_cigar_oplen c : Int)) else q) := by
  by_cases h1 : bam_cigar_op c = BAM_CMATCH ∨ bam_cigar_op c = BAM_CEQUAL ∨
      bam_cigar_op c = BAM_CDIFF
  · have hb : is_block_op c = true := by simpa [is_block_op] using h1
    simp [block_loop, if_pos h1, hb, consumes_ref, consumes_query]
  · have hb : is_block_op c = false := by simpa [is_block_op] using h1
    by_cases h2 : bam_cigar_op c = BAM_CINS
    · simp [block_loop, if_neg h1, hb, consumes_ref, consumes_query, h2, BAM_CINS, BAM_CDEL,
        BAM_CREF_SKIP, BAM_CMATCH, BAM_CEQUAL, BAM_CDIFF]
    · by_cases h3 : bam_cigar_op c = BAM_CSOFT_CLIP
      · simp [block_loop, if_neg h1, hb, consumes_ref, consumes_query, h3, BAM_CINS,
          BAM_CDEL, BAM_CREF_SKIP, BAM_CSOFT_CLIP, BAM_CMATCH, BAM_CEQUAL, BAM_CDIFF]
      · by_cases h4 : bam_cigar_op c = BAM_CDEL
        · simp [block_loop, if_neg h1, hb, consumes_ref, consumes_query, h4, BAM_CINS,
            BAM_CDEL, BAM_CREF_SKIP, BAM_CSOFT_CLIP, BAM_CMATCH, BAM_CEQUAL, BAM_CDIFF]
        · by_cases h5 : bam_cigar_op c = BAM_CREF_SKIP
          · simp [block_loop, if_neg h1, hb, consumes_ref, consumes_query, h5, BAM_CINS,
              BAM_CDEL, BAM_CREF_SKIP, BAM_CSOFT_CLIP, BAM_CMATCH, BAM_CEQUAL, BAM_CDIFF]
          · simp [block_loop, if_neg h1, hb, consumes_ref, consumes_query, h2, h3, h4, h5]

theorem query_slice_length (qseq : List Nat) (q : Int) (len : Nat) :
    (query_slice qseq q len).length = len := by
  simp [query_slice]

/-- Every block of the loop started at a reference cursor `r` whose values fit
comes from a match/equal/diff entry `c`, lies at or after `r`, ends before the
cursor's final value and carries `len` characters. -/
theorem block_loop_mem (qseq : List Nat) (l : List Nat) (r q : Int) (hr : INT_MIN < r)
    (h : r + span consumes_ref l ≤ INT_MAX) :
    ∀ x ∈ block_loop qseq l r q, ∃ c ∈ l, is_block_op c = true ∧ r ≤ x.start ∧
      x.stop = x.start + (bam_cigar_oplen c : Int) - 1 ∧
      x.start + (bam_cigar_oplen c : Int) ≤ r + span consumes_ref l ∧
      x.text.length = bam_cigar_oplen c := by
  induction l generalizing r q with
  | nil => simp [block_loop]
  | cons c cs ih =>
    have n1 := span_nonneg consumes_ref cs
    have hl := oplen_lt c
    unfold INT_MIN at hr
    unfold INT_MAX at h
    simp only [span] at h ⊢
    intro x hx
    rw [block_loop_cons] at hx
    rcases List.mem_append.1 hx with hx | hx
    · by_cases hb : is_block_op c = true
      · have hcr : consumes_ref c = true := by simp [consumes_ref, hb]
        simp only [hb, if_true, List.mem_singleton] at hx
        simp only [hcr, if_true] at h ⊢
        subst hx
        refine ⟨c, List.mem_cons_self _ _, hb, le_refl _, ?_, ?_, query_slice_length _ _ _⟩
        · exact wrap32_of_fits _ (by unfold INT_MIN; omega) (by unfold INT_MAX; omega)
        · simp only []; omega
      · simp [hb] at hx
    · by_cases hcr : consumes_ref c = true
      · simp only [hcr, if_true] at h hx ⊢
        have w : wrap32 (r + (bam_cigar_oplen c : Int)) = r + (bam_cigar_oplen c : Int) :=
          wrap32_of_fits _ (by unfold INT_MIN; omega) (by unfold INT_MAX; omega)
        rw [w] at hx
        obtain ⟨c', hc', hb', h1, h2, h3, h4⟩ :=
          ih _ _ (by unfold INT_MIN; omega) (by unfold INT_MAX; omega) x hx
        exact ⟨c', List.mem_cons_of_mem _ hc', hb', by omega, h2, by omega, h4⟩
      · simp only [hcr] at h hx ⊢
        simp only [Bool.false_eq_true, if_false, zero_add] at h hx ⊢
        obtain ⟨c', hc', hb', h1, h2, h3, h4⟩ :=
          ih _ _ (by unfold INT_MIN; omega) (by unfold INT_MAX; omega) x hx
        exact ⟨c', List.mem_cons_of_mem _ hc', hb', h1, h2, h3, h4⟩

theorem block_loop_pairwise (qseq : List Nat) (l : List Nat) (r q : Int) (hr : INT_MIN < r)
    (h : r + span consumes_ref l ≤ INT_MAX) :
    (block_loop qseq l r q).Pairwise (fun x y => x.stop < y.start ∧ x.start ≤ y.start) := by
  induction l generalizing r q with
  | nil => simp [block_loop]
  | cons c cs ih =>
    have n1 := span_nonneg consumes_ref cs
    have hl := oplen_lt c
    unfold INT_MIN at hr
    unfold INT_MAX at h
    simp only [span] at h
    rw [block_loop_cons]
    by_cases hcr : consumes_ref c = true
    · simp only [hcr, if_true] at h ⊢
      have w : wrap32 (r + (bam_cigar_oplen c : Int)) = r + (bam_cigar_oplen c : Int) :=
        wrap32_of_fits _ (by unfold INT_MIN; omega) (by unfold INT_MAX; omega)
      have w1 : wrap32 (r + (bam_cigar_oplen c : Int) - 1) = r + (bam_cigar_oplen c : Int) - 1 :=
        wrap32_of_fits _ (by unfold INT_MIN; omega) (by unfold INT_MAX; omega)
      rw [w, w1]
      have ih' := ih (r + (bam_cigar_oplen c : Int)) (wrap32 (q + (bam_cigar_oplen c : Int)))
        (by unfold INT_MIN; omega) (by unfold INT_MAX; omega)
      by_cases hb : is_block_op c = true
      · have hcq : consumes_query c = true := by simp [consumes_query, hb]
        simp only [hb, hcq, if_true, List.singleton_append, List.pairwise_cons]
        refine ⟨?_, ih'⟩
        intro y hy
        obtain ⟨c', _, _, h1, _⟩ := block_loop_mem qseq cs _ _
          (by unfold INT_MIN; omega) (by unfold INT_MAX; omega) y hy
        omega
      · have hb' : is_block_op c = false := by simpa using hb
        simp only [hb', Bool.false_eq_true, if_false, List.nil_append]
        exact ih _ _ (by unfold INT_MIN; omega) (by unfold INT_MAX; omega)
    · have hb : is_block_op c = false := by
        cases hb : is_block_op c
        · rfl
        · simp [consumes_ref, hb] at hcr
      simp only [hcr, hb] at h ⊢
      simp only [Bool.false_eq_true, if_false, zero_add, List.nil_append] at h ⊢
      exact ih _ _ (by unfold INT_MIN; omega) (by unfold INT_MAX; omega)

theorem block_loop_extent_sum (qseq : List Nat) (l : List Nat) (r q : Int) (hr : INT_MIN < r)
    (h : r + span consumes_ref l ≤ INT_MAX) :
    ((block_loop qseq l r q).map (fun x => x.stop - x.start + 1)).sum = span is_block_op l := by
  induction l generalizing r q with
  | nil => simp [block_loop, span]
  | cons c cs ih =>
    have n1 := span_nonneg consumes_ref cs
    have hl := oplen_lt c
    unfold INT_MIN at hr
    unfold INT_MAX at h
    simp only [span] at h ⊢
    rw [block_loop_cons]
    by_cases hcr : consumes_ref c = true
    · simp only [hcr, if_true] at h ⊢
      have w : wrap32 (r + (bam_cigar_oplen c : Int)) = r + (bam_cigar_oplen c : Int) :=
        wrap32_of_fits _ (by unfold INT_MIN; omega) (by unfold INT_MAX; omega)
      have w1 : wrap32 (r + (bam_cigar_oplen c : Int) - 1) = r + (bam_cigar_oplen c : Int) - 1 :=
        wrap32_of_fits _ (by unfold INT_MIN; omega) (by unfold INT_MAX; omega)
      rw [w, w1, List.map_append, List.sum_append,
        ih _ _ (by unfold INT_MIN; omega) (by unfold INT_MAX; omega)]
      by_cases hb : is_block_op c = true
      · simp [hb]; omega
      · simp [hb]
    · have hb : is_block_op c = false := by
        cases hb : is_block_op c
        · rfl
        · simp [consumes_ref, hb] at hcr
      simp only [hcr, hb] at h ⊢
      simp only [Bool.false_eq_true, if_false, zero_add, List.nil_append] at h ⊢
      exact ih _ _ (by unfold INT_MIN; omega) (by unfold INT_MAX; omega)

/-! ## C2: order of the blocks -/

/-- C2, as stated, fails: the record `0M1M` at position 0 (all cursor values
small) yields the blocks `(1, 0)` and `(1, 1)` (buffers `1;1`, `0;1`), whose
starts are equal; and the record `1M1M` at position 2147483646, all of whose
entries have length 1, yields a second block whose start has wrapped around to
a negative value. -/
theorem blocks_order_counterexample :
    (ref_cursor_fits rec_0M1M ∧
      write_blocks_one rec_0M1M [] [] [] = (2, "1;1".toList, "0;1".toList, ";A".toList) ∧
      written_blocks rec_0M1M = [⟨1, 0, []⟩, ⟨1, 1, ['A']⟩] ∧
      ¬ (written_blocks rec_0M1M).Pairwise (fun x y => x.start < y.start ∧ x.stop < y.start)) ∧
    ((∀ c ∈ rec_1M1M_edge.cigar, is_block_op c = true → 0 < bam_cigar_oplen c) ∧
      written_blocks rec_1M1M_edge =
        [⟨2147483647, 2147483647, ['A']⟩, ⟨-2147483648, -2147483648, ['M']⟩] ∧
      ¬ (written_blocks rec_1M1M_edge).Pairwise
          (fun x y => x.start < y.start ∧ x.stop < y.start)) := by
  decide

/-- C2, amended: for a record whose reference cursor values fit a signed 32-bit
int, any two blocks `i < j` satisfy `end_i < start_j` and `start_i ≤ start_j`;
when moreover every match/equal/diff entry has length at least 1, they satisfy
`start_i < start_j` and `end_i < start_j`. -/
theorem blocks_order (b : bam1_t) (hr : ref_cursor_fits b) :
    (written_blocks b).Pairwise (fun x y => x.stop < y.start ∧ x.start ≤ y.start) ∧
    ((∀ c ∈ b.cigar, is_block_op c = true → 0 < bam_cigar_oplen c) →
      (written_blocks b).Pairwise (fun x y => x.start < y.start ∧ x.stop < y.start)) := by
  have h1 : INT_MIN < wrap32 (b.pos + 1) ∧
      wrap32 (b.pos + 1) + span consumes_ref b.cigar ≤ INT_MAX := by
    have := hr.1
    have := hr.2
    have := span_nonneg consumes_ref b.cigar
    rw [wrap32_of_fits _ (by unfold INT_MIN at *; omega) (by unfold INT_MAX at *; omega)]
    unfold INT_MIN at *
    exact ⟨by omega, by assumption⟩
  have hp := block_loop_pairwise (bam_get_seq b) b.cigar (wrap32 (b.pos + 1)) 0 h1.1 h1.2
  rw [written_blocks_eq]
  refine ⟨hp, fun hpos => ?_⟩
  refine List.Pairwise.imp_of_mem ?_ hp
  intro x y hx _ hxy
  obtain ⟨c, hc, hb, _, h2, _⟩ := block_loop_mem (bam_get_seq b) b.cigar _ 0 h1.1 h1.2 x hx
  have := hpos c hc hb
  omega

theorem blocks_order_witness :
    (written_blocks rec_3M2D2M).Pairwise (fun x y => x.stop < y.start ∧ x.start ≤ y.start) ∧
    (written_blocks rec_3M2D2M).Pairwise (fun x y => x.start < y.start ∧ x.stop < y.start) :=
  ⟨(blocks_order rec_3M2D2M (by decide)).1,
    (blocks_order rec_3M2D2M (by decide)).2 (by decide)⟩

/-! ## C3: total extent of the blocks -/

/-- C3, as stated, fails: the record `2M` at position 2147483646 yields the one
block written as `2147483647` .. `-2147483648`, so `end - start + 1` is
`-4294967294`, not 2. -/
theorem blocks_extent_sum_counterexample :
    write_blocks_one rec_2M_edge [] [] [] =
      (1, "2147483647".toList, "-2147483648".toList, "AM".toList) ∧
    ((written_blocks rec_2M_edge).map (fun x => x.stop - x.start + 1)).sum = -4294967294 ∧
    span is_block_op rec_2M_edge.cigar = 2 ∧
    ((written_blocks rec_2M_edge).map (fun x => x.stop - x.start + 1)).sum ≠
      span is_block_op rec_2M_edge.cigar := by
  decide

/-- C3, amended: for a record whose reference cursor values fit a signed 32-bit
int, the sum over its blocks of `end - start + 1` equals the sum of the lengths
of the match/equal/diff entries of its CIGAR. -/
theorem blocks_extent_sum (b : bam1_t) (hr : ref_cursor_fits b) :
    ((written_blocks b).map (fun x => x.stop - x.start + 1)).sum = span is_block_op b.cigar := by
  have := hr.1
  have := hr.2
  have := span_nonneg consumes_ref b.cigar
  have w : wrap32 (b.pos + 1) = b.pos + 1 :=
    wrap32_of_fits _ (by unfold INT_MIN at *; omega) (by unfold INT_MAX at *; omega)
  rw [written_blocks_eq]
  unfold blocks_one
  rw [w]
  exact block_loop_extent_sum (bam_get_seq b) b.cigar _ 0 (by unfold INT_MIN at *; omega) (by assumption)

theorem blocks_extent_sum_witness :
    ((written_blocks rec_3M2D2M).map (fun x => x.stop - x.start + 1)).sum =
      span is_block_op rec_3M2D2M.cigar :=
  blocks_extent_sum rec_3M2D2M (by decide)

/-! ## C4: length of a block's text -/

/-- C4, as stated, fails: for the record `2M` at position 2147483646 the one
block has a text of 2 characters while `end - start + 1`, from the numbers
written to `ks_end` and `ks_start`, is `-4294967294`. -/
theorem block_text_length_counterexample :
    written_blocks rec_2M_edge = [⟨2147483647, -2147483648, ['A', 'M']⟩] ∧
    ¬ ∀ x ∈ written_blocks rec_2M_edge, (x.text.length : Int) = x.stop - x.start + 1 := by
  decide

/-- C4, amended: for a record whose reference cursor values fit a signed 32-bit
int, the text of every block (its segment of `ks_seq`) has `end - start + 1`
characters, `end` and `start` being the numbers written to `ks_end` and
`ks_start`. -/
theorem block_text_length (b : bam1_t) (hr : ref_cursor_fits b) :
    ∀ x ∈ written_blocks b, (x.text.length : Int) = x.stop - x.start + 1 := by
  have := hr.1
  have := hr.2
  have := span_nonneg consumes_ref b.cigar
  have w : wrap32 (b.pos + 1) = b.pos + 1 :=
    wrap32_of_fits _ (by unfold INT_MIN at *; omega) (by unfold INT_MAX at *; omega)
  rw [written_blocks_eq]
  unfold blocks_one
  rw [w]
  intro x hx
  obtain ⟨c, _, _, _, h2, _, h4⟩ := block_loop_mem (bam_get_seq b) b.cigar _ 0
    (by unfold INT_MIN at *; omega) (by assumption) x hx
  omega

theorem block_text_length_witness :
    written_blocks rec_3M2D2M = [⟨101, 103, "-AM".toList⟩, ⟨106, 107, "VB".toList⟩] ∧
    (((⟨101, 103, "-AM".toList⟩ : Block).text.length : Int) =
      (⟨101, 103, "-AM".toList⟩ : Block).stop - (⟨101, 103, "-AM".toList⟩ : Block).start + 1) ∧
    (((⟨106, 107, "VB".toList⟩ : Block).text.length : Int) =
      (⟨106, 107, "VB".toList⟩ : Block).stop - (⟨106, 107, "VB".toList⟩ : Block).start + 1) :=
  ⟨by decide,
    block_text_length rec_3M2D2M (by decide) ⟨101, 103, "-AM".toList⟩ (by decide),
    block_text_length rec_3M2D2M (by decide) ⟨106, 107, "VB".toList⟩ (by decide)⟩

/-! ## C5: records without a match/equal/diff entry -/

theorem block_loop_no_block (qseq : List Nat) (l : List Nat) (r q : Int)
    (h : ∀ c ∈ l, is_block_op c = false) : block_loop qseq l r q = [] := by
  induction l generalizing r q with
  | nil => simp [block_loop]
  | cons c cs ih =>
    rw [block_loop_cons, h c (List.mem_cons_self _ _)]
    simpa using ih _ _ (fun c hc => h c (List.mem_cons_of_mem _ hc))

/-- C5: for a record whose CIGAR has no match/equal/diff entry,
`write_blocks_one` returns 0 and leaves the three buffers as they were, and
the loop iteration on that record writes nothing to the row file, hands
nothing to the secondary destination and leaves `n_reads` unchanged. -/
theorem no_block_record (b : bam1_t) (h : ∀ c ∈ b.cigar, is_block_op c = false) :
    (∀ s e q : List Char, write_blocks_one b s e q = (0, s, e, q)) ∧
    (∀ (xf_vals : List Int) (env : ScanEnv) (st : ScanState),
      (scan_step xf_vals env st b).fp = st.fp ∧
      (scan_step xf_vals env st b).log = st.log ∧
      (scan_step xf_vals env st b).out = st.out ∧
      (scan_step xf_vals env st b).n_reads = st.n_reads) := by
  have hb : blocks_one b = [] := block_loop_no_block _ _ _ _ h
  have hw : ∀ s e q : List Char, write_blocks_one b s e q = (0, s, e, q) := by
    intro s e q
    rw [write_blocks_one_eq, hb]
    simp [join_semi]
  refine ⟨hw, ?_⟩
  intro xf_vals env st
  unfold scan_step
  by_cases hf : record_filter xf_vals env.mem b = false
  · simp [hf]
  · simp [hf, hw]

theorem no_block_record_witness :
    (∀ s e q : List Char, write_blocks_one rec_no_block s e q = (0, s, e, q)) ∧
    (∀ (xf_vals : List Int) (env : ScanEnv) (st : ScanState),
      (scan_step xf_vals env st rec_no_block).fp = st.fp ∧
      (scan_step xf_vals env st rec_no_block).log = st.log ∧
      (scan_step xf_vals env st rec_no_block).out = st.out ∧
      (scan_step xf_vals env st rec_no_block).n_reads = st.n_reads) :=
  no_block_record rec_no_block (by decide)

/-! ## C6: the record filter -/

theorem lor_eq_zero (a b : Nat) : a ||| b = 0 ↔ a = 0 ∧ b = 0 := by
  constructor
  · intro h
    have hbit : ∀ i, (a.testBit i || b.testBit i) = false := by
      intro i
      rw [← Nat.testBit_or, h, Nat.zero_testBit]
    constructor
    · apply Nat.zero_of_testBit_eq_false
      intro i
      have := hbit i
      simp only [Bool.or_eq_false_iff] at this
      exact this.1
    · apply Nat.zero_of_testBit_eq_false
      intro i
      have := hbit i
      simp only [Bool.or_eq_false_iff] at this
      exact this.2
  · rintro ⟨rfl, rfl⟩
    rfl

theorem flag_test (flag : Nat) :
    flag &&& (BAM_FUNMAP ||| BAM_FSECONDARY ||| BAM_FSUPPLEMENTARY) = 0 ↔
      flag &&& BAM_FUNMAP = 0 ∧ flag &&& BAM_FSECONDARY = 0 ∧ flag &&& BAM_FSUPPLEMENTARY = 0 := by
  rw [Nat.and_or_distrib_left, Nat.and_or_distrib_left, lor_eq_zero, lor_eq_zero, and_assoc]

theorem xf_loop_true_iff (xf : Int) (slot : Nat → Int) (i k : Nat) :
    (xf_loop xf slot i k).1 = true ↔ ∃ j, i ≤ j ∧ j < i + k ∧ xf = slot j := by
  induction k generalizing i with
  | zero =>
    simp only [xf_loop, Bool.false_eq_true, false_iff]
    rintro ⟨j, h1, h2, _⟩
    omega
  | succ k ih =>
    unfold xf_loop
    by_cases h : xf = slot i
    · rw [if_pos h]
      exact ⟨fun _ => ⟨i, le_refl _, by omega, h⟩, fun _ => rfl⟩
    · simp only [h, if_false, ih]
      constructor
      · rintro ⟨j, h1, h2, h3⟩
        exact ⟨j, by omega, by omega, h3⟩
      · rintro ⟨j, h1, h2, h3⟩
        have hne : j ≠ i := by
          rintro rfl
          exact h h3
        exact ⟨j, by omega, by omega, h3⟩

theorem okxf_iff_mem (xf : Int) (xf_vals : List Int) (mem : Nat → Int)
    (h : xf_vals.length ≤ 16) :
    (xf_loop xf (xf_allow xf_vals mem) 0 xf_vals.length).1 = true ↔ xf ∈ xf_vals := by
  rw [xf_loop_true_iff]
  constructor
  · rintro ⟨j, _, h2, h3⟩
    have hj : j < xf_vals.length := by omega
    simp only [xf_allow, if_pos (show j < 16 by omega)] at h3
    rw [List.getD_eq_getElem _ _ hj] at h3
    rw [h3]
    exact List.getElem_mem _
  · intro hm
    obtain ⟨j, hj, he⟩ := List.getElem_of_mem hm
    refine ⟨j, Nat.zero_le _, by omega, ?_⟩
    simp only [xf_allow, if_pos (show j < 16 by omega)]
    rw [List.getD_eq_getElem _ _ hj, he]

/-- C6: for an allow list of at most 16 values, the filter lets a record
through exactly when none of the unmapped / secondary / supplementary flag
bits is set, the tag `xf` is present with a value in the allow list, and both
`CB` and `UB` are present; a record without `xf` is rejected; and a rejected
record only makes the loop go on to the next record (nothing is written, no
error is raised: the scan's error does not depend on the records). -/
theorem record_filter_iff (xf_vals : List Int) (mem : Nat → Int) (b : bam1_t)
    (h : xf_vals.length ≤ 16) :
    (record_filter xf_vals mem b = true ↔
      (b.flag &&& BAM_FUNMAP = 0 ∧ b.flag &&& BAM_FSECONDARY = 0 ∧
        b.flag &&& BAM_FSUPPLEMENTARY = 0) ∧
      (∃ v, b.xf = some v ∧ v ∈ xf_vals) ∧ b.CB ≠ none ∧ b.UB ≠ none) ∧
    (b.xf = none → record_filter xf_vals mem b = false) ∧
    (∀ (env : ScanEnv) (st : ScanState), env.mem = mem →
      record_filter xf_vals mem b = false →
      scan_step xf_vals env st b = { st with pulled := st.pulled + 1 }) ∧
    (∀ (out_bam : List Char) (env : ScanEnv),
      (_exonBlocks_scan_bam_blocks_hts out_bam xf_vals env).error =
        (_exonBlocks_scan_bam_blocks_hts out_bam xf_vals { env with records := [] }).error) := by
  refine ⟨?_, ?_, ?_, ?_⟩
  · unfold record_filter
    rw [← flag_test]
    by_cases hf : b.flag &&& (BAM_FUNMAP ||| BAM_FSECONDARY ||| BAM_FSUPPLEMENTARY) = 0
    · cases hx : b.xf with
      | none => simp [hf, get_tagi]
      | some v =>
        have hm := okxf_iff_mem v xf_vals mem h
        by_cases hv : v ∈ xf_vals
        · have ho := hm.2 hv
          cases hcb : b.CB <;> cases hub : b.UB <;> simp [hf, get_tagi, get_tagZ, ho, hv]
        · have ho : (xf_loop v (xf_allow xf_vals mem) 0 xf_vals.length).1 = false := by
            cases hq : (xf_loop v (xf_allow xf_vals mem) 0 xf_vals.length).1
            · rfl
            · exact absurd (hm.1 hq) hv
          simp [hf, get_tagi, ho, hv]
    · simp [hf]
  · intro hx
    unfold record_filter
    simp [hx, get_tagi]
  · intro env st hmem hrej
    unfold scan_step
    simp [hmem, hrej]
  · intro out_bam env
    unfold _exonBlocks_scan_bam_blocks_hts
    have hs : scan_setup out_bam { env with records := [] } = scan_setup out_bam env := rfl
    rw [hs]
    rcases scan_setup out_bam env with ⟨e, log⟩ | ⟨out, log⟩ <;> rfl

theorem record_filter_iff_witness :
    (record_filter [1, 25] (fun _ => 0) rec_3M2D2M = true ↔
      (rec_3M2D2M.flag &&& BAM_FUNMAP = 0 ∧ rec_3M2D2M.flag &&& BAM_FSECONDARY = 0 ∧
        rec_3M2D2M.flag &&& BAM_FSUPPLEMENTARY = 0) ∧
      (∃ v, rec_3M2D2M.xf = some v ∧ v ∈ [1, 25]) ∧ rec_3M2D2M.CB ≠ none ∧
        rec_3M2D2M.UB ≠ none) ∧
    (rec_3M2D2M.xf = none → record_filter [1, 25] (fun _ => 0) rec_3M2D2M = false) ∧
    (∀ (env : ScanEnv) (st : ScanState), env.mem = (fun _ => 0) →
      record_filter [1, 25] (fun _ => 0) rec_3M2D2M = false →
      scan_step [1, 25] env st rec_3M2D2M = { st with pulled := st.pulled + 1 }) ∧
    (∀ (out_bam : List Char) (env : ScanEnv),
      (_exonBlocks_scan_bam_blocks_hts out_bam [1, 25] env).error =
        (_exonBlocks_scan_bam_blocks_hts out_bam [1, 25] { env with records := [] }).error) :=
  record_filter_iff [1, 25] (fun _ => 0) rec_3M2D2M (by decide)

/-! ## C7: the row -/

theorem count_semi_join_semi (first : Bool) (segs : List (List Char))
    (h : ∀ s ∈ segs, ';' ∉ s) :
    List.count ';' (join_semi first segs) =
      if first then segs.length - 1 else segs.length := by
  induction segs generalizing first with
  | nil => simp [join_semi]
  | cons s ss ih =>
    have h0 : List.count ';' s = 0 := List.count_eq_zero.2 (h s (List.mem_cons_self _ _))
    have ih' := ih false (fun t ht => h t (List.mem_cons_of_mem _ ht))
    simp only [Bool.false_eq_true, if_false] at ih'
    cases first <;> simp [join_semi, sep, List.count_append, h0, ih']

theorem record_filter_tags (xf_vals : List Int) (mem : Nat → Int) (b : bam1_t)
    (h : record_filter xf_vals mem b = true) :
    ∃ cb ub, b.CB = some cb ∧ b.UB = some ub := by
  unfold record_filter at h
  cases hcb : b.CB <;> cases hub : b.UB <;> simp [hcb, hub, get_tagZ] at h ⊢

/-- C7: for a record that passes the filter and has the blocks
`(s_1, e_1, t_1), ..., (s_n, e_n, t_n)`, `n ≥ 1`, the loop iteration appends to
the row file exactly `CB ⇥ UB ⇥ s_1;...;s_n ⇥ e_1;...;e_n ⇥ t_1;...;t_n ⇥ n ⏎`
(numbers in decimal); each of the three joined fields holds `n - 1`
semicolons; and the record `10M` at 0-based position 100 gives the fields
`101`, `110`, its ten decoded symbols and `1`. -/
theorem row_format (xf_vals : List Int) (env : ScanEnv) (st : ScanState) (b : bam1_t)
    (hf : record_filter xf_vals env.mem b = true) (hn : written_blocks b ≠ []) :
    (∃ cb ub, b.CB = some cb ∧ b.UB = some ub ∧
      (scan_step xf_vals env st b).fp = st.fp ++
        (cb ++ ['\t'] ++ ub ++ ['\t'] ++
          [';'].intercalate ((written_blocks b).map (fun k => kputw k.start)) ++ ['\t'] ++
          [';'].intercalate ((written_blocks b).map (fun k => kputw k.stop)) ++ ['\t'] ++
          [';'].intercalate ((written_blocks b).map (fun k => k.text)) ++ ['\t'] ++
          kputw (written_blocks b).length ++ ['\n'])) ∧
    List.count ';' ([';'].intercalate ((written_blocks b).map (fun k => kputw k.start))) =
      (written_blocks b).length - 1 ∧
    List.count ';' ([';'].intercalate ((written_blocks b).map (fun k => kputw k.stop))) =
      (written_blocks b).length - 1 ∧
    List.count ';' ([';'].intercalate ((written_blocks b).map (fun k => k.text))) =
      (written_blocks b).length - 1 ∧
    (scan_step [25] env_plain (scan_init false []) rec_10M).fp =
      tsv_header ++ "AAAC-1\tGGT\t101\t110\t-AMVB-AMVB\t1\n".toList := by
  rw [written_blocks_eq] at hn ⊢
  refine ⟨?_, ?_, ?_, ?_, by decide⟩
  · obtain ⟨cb, ub, hcb, hub⟩ := record_filter_tags _ _ _ hf
    refine ⟨cb, ub, hcb, hub, ?_⟩
    have hlen : ¬ (((blocks_one b).length : Int) ≤ 0) := by
      have := List.length_pos.2 hn
      omega
    unfold scan_step
    simp only [hf, write_blocks_one_eq, List.nil_append, join_semi_true_eq_intercalate]
    simp [hlen, secondary_write, tsv_row, hcb, hub, get_tagZ]
    split_ifs <;> simp
  · rw [← join_semi_true_eq_intercalate, count_semi_join_semi]
    · simp
    · intro s hs
      rcases List.mem_map.1 hs with ⟨k, _, rfl⟩
      exact semi_not_mem_kputw _
  · rw [← join_semi_true_eq_intercalate, count_semi_join_semi]
    · simp
    · intro s hs
      rcases List.mem_map.1 hs with ⟨k, _, rfl⟩
      exact semi_not_mem_kputw _
  · rw [← join_semi_true_eq_intercalate, count_semi_join_semi]
    · simp
    · intro s hs
      rcases List.mem_map.1 hs with ⟨k, hk, rfl⟩
      exact semi_not_mem_block_text _ _ _ _ k hk


theorem row_format_witness :
    (∃ cb ub, rec_3M2D2M.CB = some cb ∧ rec_3M2D2M.UB = some ub ∧
      (scan_step [25] env_plain (scan_init false []) rec_3M2D2M).fp =
        (scan_init false []).fp ++
        (cb ++ ['\t'] ++ ub ++ ['\t'] ++
          [';'].intercalate ((written_blocks rec_3M2D2M).map (fun k => kputw k.start)) ++
          ['\t'] ++
          [';'].intercalate ((written_blocks rec_3M2D2M).map (fun k => kputw k.stop)) ++
          ['\t'] ++
          [';'].intercalate ((written_blocks rec_3M2D2M).map (fun k => k.text)) ++ ['\t'] ++
          kputw (written_blocks rec_3M2D2M).length ++ ['\n'])) ∧
    List.count ';'
        ([';'].intercalate ((written_blocks rec_3M2D2M).map (fun k => kputw k.start))) =
      (written_blocks rec_3M2D2M).length - 1 ∧
    List.count ';'
        ([';'].intercalate ((written_blocks rec_3M2D2M).map (fun k => kputw k.stop))) =
      (written_blocks rec_3M2D2M).length - 1 ∧
    List.count ';' ([';'].intercalate ((written_blocks rec_3M2D2M).map (fun k => k.text))) =
      (written_blocks rec_3M2D2M).length - 1 ∧
    (scan_step [25] env_plain (scan_init false []) rec_10M).fp =
      tsv_header ++ "AAAC-1\tGGT\t101\t110\t-AMVB-AMVB\t1\n".toList :=
  row_format [25] env_plain (scan_init false []) rec_3M2D2M (by decide) (by decide)

/-! ## Lemmas: the streaming loop -/

theorem scan_step_skip (xf_vals : List Int) (env : ScanEnv) (st : ScanState) (b : bam1_t)
    (h : emits xf_vals env.mem b = false) :
    (scan_step xf_vals env st b).fp = st.fp ∧
    (scan_step xf_vals env st b).n_reads = st.n_reads ∧
    (scan_step xf_vals env st b).out = st.out ∧
    (scan_step xf_vals env st b).log = st.log := by
  unfold emits at h
  unfold scan_step
  by_cases hf : record_filter xf_vals env.mem b = false
  · simp [hf]
  · have hf' : record_filter xf_vals env.mem b = true := by simpa using hf
    simp only [hf', Bool.true_and, decide_eq_false_iff_not, not_lt] at h
    simp [hf', h]

theorem scan_step_emits (xf_vals : List Int) (env : ScanEnv) (st : ScanState) (b : bam1_t)
    (h : emits xf_vals env.mem b = true) :
    (scan_step xf_vals env st b).fp = st.fp ++ row_of b ∧
    (scan_step xf_vals env st b).n_reads = st.n_reads + 1 ∧
    (scan_step xf_vals env st b).out = (st.out && env.sam_write1_ok st.n_reads) ∧
    (scan_step xf_vals env st b).log = st.log ++
      (if st.out then
        (if env.sam_write1_ok st.n_reads then [SecEvent.write1 b true]
         else [SecEvent.write1 b false, SecEvent.warn_write, SecEvent.close])
       else []) := by
  unfold emits at h
  simp only [Bool.and_eq_true, decide_eq_true_eq] at h
  obtain ⟨hf, hn⟩ := h
  have hn' : ¬ ((write_blocks_one b [] [] []).1 ≤ 0) := by omega
  unfold scan_step
  simp only [hf, hn', secondary_write, row_of]
  cases ho : st.out <;> cases hw : env.sam_write1_ok st.n_reads <;> simp [ho, hw]

theorem scan_loop_rows (xf_vals : List Int) (env : ScanEnv) (l : List bam1_t)
    (st : ScanState) :
    (scan_loop xf_vals env l st).fp =
      st.fp ++ ((l.filter (emits xf_vals env.mem)).map row_of).flatten ∧
    (scan_loop xf_vals env l st).n_reads =
      st.n_reads + (l.filter (emits xf_vals env.mem)).length := by
  induction l generalizing st with
  | nil => simp [scan_loop]
  | cons b bs ih =>
    rw [scan_loop]
    obtain ⟨ih1, ih2⟩ := ih (scan_step xf_vals env st b)
    rw [ih1, ih2]
    cases h : emits xf_vals env.mem b
    · obtain ⟨h1, h2, _, _⟩ := scan_step_skip xf_vals env st b h
      simp [h, h1, h2]
    · obtain ⟨h1, h2, _, _⟩ := scan_step_emits xf_vals env st b h
      simp [h, h1, h2]
      omega

theorem scan_setup_of_ok (out_bam : List Char) (env : ScanEnv) (h : setup_ok out_bam env) :
    ∃ out log, scan_setup out_bam env = .ok (out, log) ∧
      out = (decide (out_bam ≠ []) && env.sam_hdr_write_ok) := by
  obtain ⟨h1, h2, h3, h4, h5, h6⟩ := h
  unfold scan_setup
  have h4' : ¬ env.tid < 0 := by omega
  by_cases ho : out_bam = []
  · simp [h1, h2, h3, h4', h6, ho]
  · have h5' := h5 ho
    cases hh : env.sam_hdr_write_ok <;> simp [h1, h2, h3, h4', h6, ho, h5', hh]

/-- The row file and the returned vector of a scan whose setup succeeded. -/
theorem scan_outcome_rows (out_bam : List Char) (xf_vals : List Int) (env : ScanEnv)
    (h : setup_ok out_bam env) :
    (_exonBlocks_scan_bam_blocks_hts out_bam xf_vals env).error = none ∧
    (_exonBlocks_scan_bam_blocks_hts out_bam xf_vals env).tsv =
      tsv_header ++ ((env.records.filter (emits xf_vals env.mem)).map row_of).flatten ∧
    (_exonBlocks_scan_bam_blocks_hts out_bam xf_vals env).ans =
      [wrap32 ((env.records.filter (emits xf_vals env.mem)).length : Int)] := by
  obtain ⟨out, log, hs, _⟩ := scan_setup_of_ok out_bam env h
  unfold _exonBlocks_scan_bam_blocks_hts
  rw [hs]
  simp only [scan_run]
  obtain ⟨h1, h2⟩ := scan_loop_rows xf_vals env env.records (scan_init out log)
  rw [h1, h2]
  simp [scan_init]


theorem scan_loop_closed (xf_vals : List Int) (env : ScanEnv) (l : List bam1_t)
    (st : ScanState) (h : st.out = false) :
    (scan_loop xf_vals env l st).out = false ∧ (scan_loop xf_vals env l st).log = st.log := by
  induction l generalizing st with
  | nil => simp [scan_loop, h]
  | cons b bs ih =>
    rw [scan_loop]
    cases he : emits xf_vals env.mem b
    · obtain ⟨_, _, h3, h4⟩ := scan_step_skip xf_vals env st b he
      obtain ⟨i1, i2⟩ := ih (scan_step xf_vals env st b) (by rw [h3, h])
      exact ⟨i1, by rw [i2, h4]⟩
    · obtain ⟨_, _, h3, h4⟩ := scan_step_emits xf_vals env st b he
      obtain ⟨i1, i2⟩ := ih (scan_step xf_vals env st b) (by rw [h3, h]; rfl)
      exact ⟨i1, by rw [i2, h4, h]; simp⟩

theorem scan_loop_all_ok (xf_vals : List Int) (env : ScanEnv) (l : List bam1_t)
    (st : ScanState) (ho : st.out = true)
    (hw : ∀ n, n < (l.filter (emits xf_vals env.mem)).length →
      env.sam_write1_ok (st.n_reads + n) = true) :
    (scan_loop xf_vals env l st).out = true ∧
    (scan_loop xf_vals env l st).log =
      st.log ++ (l.filter (emits xf_vals env.mem)).map (fun r => SecEvent.write1 r true) := by
  induction l generalizing st with
  | nil => simp [scan_loop, ho]
  | cons b bs ih =>
    rw [scan_loop]
    cases he : emits xf_vals env.mem b
    · obtain ⟨_, h2, h3, h4⟩ := scan_step_skip xf_vals env st b he
      simp only [List.filter_cons, he] at hw ⊢
      obtain ⟨i1, i2⟩ := ih (scan_step xf_vals env st b) (by rw [h3, ho])
        (by intro n hn; rw [h2]; exact hw n (by simpa using hn))
      exact ⟨i1, by rw [i2, h4]; simp⟩
    · obtain ⟨_, h2, h3, h4⟩ := scan_step_emits xf_vals env st b he
      simp only [List.filter_cons, he, if_true, List.length_cons] at hw ⊢
      have h0 : env.sam_write1_ok st.n_reads = true := by
        have := hw 0 (by omega)
        simpa using this
      obtain ⟨i1, i2⟩ := ih (scan_step xf_vals env st b) (by rw [h3, ho, h0]; rfl)
        (by
          intro n hn
          rw [h2]
          have := hw (n + 1) (by omega)
          rw [show st.n_reads + 1 + n = st.n_reads + (n + 1) by omega]
          exact this)
      exact ⟨i1, by rw [i2, h4, ho, h0]; simp⟩

theorem scan_loop_fail (xf_vals : List Int) (env : ScanEnv) (l : List bam1_t)
    (st : ScanState) (ho : st.out = true) (k : Nat) (r : bam1_t)
    (hk : (l.filter (emits xf_vals env.mem))[k]? = some r)
    (hf : env.sam_write1_ok (st.n_reads + k) = false)
    (hok : ∀ n, n < k → env.sam_write1_ok (st.n_reads + n) = true) :
    (scan_loop xf_vals env l st).out = false ∧
    (scan_loop xf_vals env l st).log =
      st.log ++ ((l.filter (emits xf_vals env.mem)).take k).map
          (fun r => SecEvent.write1 r true) ++
        [SecEvent.write1 r false, SecEvent.warn_write, SecEvent.close] := by
  induction l generalizing st k with
  | nil => simp at hk
  | cons b bs ih =>
    rw [scan_loop]
    cases he : emits xf_vals env.mem b
    · obtain ⟨_, h2, h3, h4⟩ := scan_step_skip xf_vals env st b he
      simp only [List.filter_cons, he] at hk ⊢
      obtain ⟨i1, i2⟩ := ih (scan_step xf_vals env st b) (by rw [h3, ho]) k
        (by simpa using hk) (by rw [h2]; exact hf) (by intro n hn; rw [h2]; exact hok n hn)
      exact ⟨i1, by rw [i2, h4]; simp⟩
    · obtain ⟨_, h2, h3, h4⟩ := scan_step_emits xf_vals env st b he
      simp only [List.filter_cons, he, if_true] at hk ⊢
      cases k with
      | zero =>
        simp only [List.getElem?_cons_zero, Option.some.injEq] at hk
        subst hk
        simp only [add_zero] at hf
        obtain ⟨i1, i2⟩ := scan_loop_closed xf_vals env bs (scan_step xf_vals env st b)
          (by rw [h3, ho, hf]; rfl)
        exact ⟨i1, by rw [i2, h4, ho, hf]; simp⟩
      | succ k =>
        have h0 : env.sam_write1_ok st.n_reads = true := by
          have := hok 0 (by omega)
          simpa using this
        simp only [List.getElem?_cons_succ] at hk
        obtain ⟨i1, i2⟩ := ih (scan_step xf_vals env st b) (by rw [h3, ho, h0]; rfl) k hk
          (by rw [h2, show st.n_reads + 1 + k = st.n_reads + (k + 1) by omega]; exact hf)
          (by
            intro n hn
            rw [h2, show st.n_reads + 1 + n = st.n_reads + (n + 1) by omega]
            exact hok (n + 1) (by omega))
        exact ⟨i1, by rw [i2, h4, ho, h0]; simp⟩

theorem scan_outcome_abort (out_bam : List Char) (xf_vals : List Int) (env : ScanEnv)
    (e : ScanError) (log : List SecEvent) (h : scan_setup out_bam env = .error (e, log)) :
    (_exonBlocks_scan_bam_blocks_hts out_bam xf_vals env).error = some e ∧
    (_exonBlocks_scan_bam_blocks_hts out_bam xf_vals env).tsv = [] ∧
    (_exonBlocks_scan_bam_blocks_hts out_bam xf_vals env).ans = [] := by
  unfold _exonBlocks_scan_bam_blocks_hts
  rw [h]
  simp [abort]

/-- When opening the secondary output cannot fail, a failed setup fails with
the same error whatever the output path and the header write do. -/
theorem scan_setup_error (out_bam : List Char) (env : ScanEnv)
    (ho : env.sam_open_out_ok = true) (h : ¬ setup_ok out_bam env) :
    ∃ e log, scan_setup out_bam env = .error (e, log) ∧
      e = (if env.sam_open_in_ok = false then ScanError.open_input
        else if env.sam_hdr_read_ok = false then ScanError.read_header
        else if env.sam_index_load_ok = false then ScanError.no_index
        else if env.tid < 0 then ScanError.unknown_contig
        else ScanError.open_tsv) := by
  unfold setup_ok at h
  unfold scan_setup
  cases h1 : env.sam_open_in_ok
  · simp
  · cases h2 : env.sam_hdr_read_ok
    · simp
    · cases h3 : env.sam_index_load_ok
      · simp
      · by_cases h4 : env.tid < 0
        · simp [h4]
        · have h6 : env.fopen_ok = false := by
            cases h6 : env.fopen_ok
            · rfl
            · exact absurd ⟨h1, h2, h3, by omega, fun _ => ho, h6⟩ h
          by_cases hb : out_bam = []
          · simp [h4, h6, hb]
          · cases hh : env.sam_hdr_write_ok <;> simp [h4, h6, hb, ho, hh]


/-! ## C8: the row file and the returned count -/

theorem emits_iff (xf_vals : List Int) (mem : Nat → Int) (b : bam1_t) :
    emits xf_vals mem b = true ↔ record_filter xf_vals mem b = true ∧ written_blocks b ≠ [] := by
  unfold emits
  rw [written_blocks_eq, write_blocks_one_eq]
  simp only [Bool.and_eq_true, decide_eq_true_eq]
  constructor
  · rintro ⟨h1, h2⟩
    refine ⟨h1, ?_⟩
    intro hb
    rw [hb] at h2
    simp at h2
  · rintro ⟨h1, h2⟩
    have := List.length_pos.2 h2
    exact ⟨h1, by simpa using this⟩

/-- C8, as stated, fails on the returned value: when the iterator delivers
2147483648 records that all pass the filter and have blocks, 2147483648 rows
are written, and the scan returns `-2147483648`. -/
theorem scan_rows_counterexample :
    setup_ok [] env_2G ∧
    (env_2G.records.filter (emits [25] env_2G.mem)).length = 2147483648 ∧
    (_exonBlocks_scan_bam_blocks_hts [] [25] env_2G).ans = [-2147483648] := by
  have hs : setup_ok [] env_2G := by decide
  have he : emits [25] env_2G.mem rec_3M2D2M = true := by decide
  have hr : env_2G.records = List.replicate 2147483648 rec_3M2D2M := rfl
  have hlen : (env_2G.records.filter (emits [25] env_2G.mem)).length = 2147483648 := by
    rw [hr, List.filter_replicate_of_pos he, List.length_replicate]
  refine ⟨hs, hlen, ?_⟩
  rw [(scan_outcome_rows [] [25] env_2G hs).2.2, hlen]
  decide

/-- C8, amended: once setup has succeeded, the row file holds the header line
followed by the rows of exactly the records that pass the filter and have at
least one block, in stream order, one row each; the scan returns the number of
those rows reduced to a signed 32-bit int, which is that number whenever it is
below 2147483648. -/
theorem scan_rows (out_bam : List Char) (xf_vals : List Int) (env : ScanEnv)
    (h : setup_ok out_bam env) :
    (_exonBlocks_scan_bam_blocks_hts out_bam xf_vals env).tsv =
      "CB\tUMI\tblock_start\tblock_end\tblock_seq\tnum_blocks\n".toList ++
        ((env.records.filter (fun b => decide (record_filter xf_vals env.mem b = true ∧
          written_blocks b ≠ []))).map row_of).flatten ∧
    (_exonBlocks_scan_bam_blocks_hts out_bam xf_vals env).ans =
      [wrap32 ((env.records.filter (fun b => decide (record_filter xf_vals env.mem b = true ∧
          written_blocks b ≠ []))).length : Int)] ∧
    ((env.records.filter (fun b => decide (record_filter xf_vals env.mem b = true ∧
          written_blocks b ≠ []))).length < 2147483648 →
      (_exonBlocks_scan_bam_blocks_hts out_bam xf_vals env).ans =
        [((env.records.filter (fun b => decide (record_filter xf_vals env.mem b = true ∧
          written_blocks b ≠ []))).length : Int)]) := by
  have hfun : (fun b => decide (record_filter xf_vals env.mem b = true ∧
      written_blocks b ≠ [])) = emits xf_vals env.mem := by
    funext b
    cases he : emits xf_vals env.mem b
    · rw [decide_eq_false_iff_not, ← emits_iff, he]; simp
    · rw [decide_eq_true_iff, ← emits_iff, he]
  rw [hfun]
  obtain ⟨_, h2, h3⟩ := scan_outcome_rows out_bam xf_vals env h
  refine ⟨h2, h3, fun hlt => ?_⟩
  rw [h3, wrap32_of_fits _ (by unfold INT_MIN; omega) (by unfold INT_MAX; omega)]

theorem scan_rows_witness :
    (_exonBlocks_scan_bam_blocks_hts "o.bam".toList [25] env_fail2).tsv =
      "CB\tUMI\tblock_start\tblock_end\tblock_seq\tnum_blocks\n".toList ++
        ((env_fail2.records.filter (fun b => decide (record_filter [25] env_fail2.mem b = true ∧
          written_blocks b ≠ []))).map row_of).flatten ∧
    (_exonBlocks_scan_bam_blocks_hts "o.bam".toList [25] env_fail2).ans = [3] :=
  ⟨(scan_rows "o.bam".toList [25] env_fail2 (by decide)).1,
    (scan_rows "o.bam".toList [25] env_fail2 (by decide)).2.2 (by decide)⟩

/-! ## C9: the row output does not depend on the secondary destination -/

/-- C9: two scans of the same input that differ only in the secondary
destination (its path, empty when none is requested; whether its header write
succeeds; which of its record writes fail; the result of its index build),
opening it never failing, write the same bytes to the row file, return the same
vector and end with the same error status; so when setup succeeded the row file
holds the rows of all records that pass the filter and have blocks, whichever
secondary write failed. -/
theorem secondary_independent (xf_vals : List Int) (env : ScanEnv)
    (out1 out2 : List Char) (hdr1 hdr2 : Bool) (w1 w2 : Nat → Bool) (rc1 rc2 : Int) :
    (_exonBlocks_scan_bam_blocks_hts out1 xf_vals (with_secondary env hdr1 w1 rc1)).tsv =
      (_exonBlocks_scan_bam_blocks_hts out2 xf_vals (with_secondary env hdr2 w2 rc2)).tsv ∧
    (_exonBlocks_scan_bam_blocks_hts out1 xf_vals (with_secondary env hdr1 w1 rc1)).ans =
      (_exonBlocks_scan_bam_blocks_hts out2 xf_vals (with_secondary env hdr2 w2 rc2)).ans ∧
    (_exonBlocks_scan_bam_blocks_hts out1 xf_vals (with_secondary env hdr1 w1 rc1)).error =
      (_exonBlocks_scan_bam_blocks_hts out2 xf_vals (with_secondary env hdr2 w2 rc2)).error ∧
    ((_exonBlocks_scan_bam_blocks_hts out1 xf_vals (with_secondary env hdr1 w1 rc1)).error =
        none →
      (_exonBlocks_scan_bam_blocks_hts out1 xf_vals (with_secondary env hdr1 w1 rc1)).tsv =
        tsv_header ++ ((env.records.filter (emits xf_vals env.mem)).map row_of).flatten) := by
  by_cases hs : setup_ok out1 (with_secondary env hdr1 w1 rc1)
  · have hs2 : setup_ok out2 (with_secondary env hdr2 w2 rc2) := by
      obtain ⟨a1, a2, a3, a4, _, a6⟩ := hs
      exact ⟨a1, a2, a3, a4, fun _ => rfl, a6⟩
    obtain ⟨e1, t1, r1⟩ := scan_outcome_rows out1 xf_vals _ hs
    obtain ⟨e2, t2, r2⟩ := scan_outcome_rows out2 xf_vals _ hs2
    exact ⟨by rw [t1, t2]; rfl, by rw [r1, r2]; rfl, by rw [e1, e2], fun _ => t1⟩
  · have hs2 : ¬ setup_ok out2 (with_secondary env hdr2 w2 rc2) := by
      intro hc
      obtain ⟨a1, a2, a3, a4, _, a6⟩ := hc
      exact hs ⟨a1, a2, a3, a4, fun _ => rfl, a6⟩
    obtain ⟨x1, l1, q1, hx1⟩ := scan_setup_error out1 _ rfl hs
    obtain ⟨x2, l2, q2, hx2⟩ := scan_setup_error out2 _ rfl hs2
    obtain ⟨e1, t1, r1⟩ := scan_outcome_abort out1 xf_vals _ _ _ q1
    obtain ⟨e2, t2, r2⟩ := scan_outcome_abort out2 xf_vals _ _ _ q2
    refine ⟨by rw [t1, t2], by rw [r1, r2], by rw [e1, e2, hx1, hx2]; rfl, fun hn => ?_⟩
    rw [e1] at hn
    exact absurd hn (by simp)


/-! ## C10: what reaches the secondary destination -/

/-- C10, as stated, fails: in a scan with the secondary destination `o.bam`
whose header write fails, rows are written for three records and the scan
returns 3, but the destination is closed right after the header write, without
a warning, and no record is ever handed to it. -/
theorem secondary_log_counterexample :
    setup_ok "o.bam".toList env_hdr_fail ∧
    env_hdr_fail.records.filter (emits [25] env_hdr_fail.mem) =
      [rec_3M2D2M, rec_10M, rec_0M1M] ∧
    (_exonBlocks_scan_bam_blocks_hts "o.bam".toList [25] env_hdr_fail).ans = [3] ∧
    (_exonBlocks_scan_bam_blocks_hts "o.bam".toList [25] env_hdr_fail).log =
      [SecEvent.hdr_write false, SecEvent.close] := by
  decide

/-- C10, amended: in a scan whose secondary destination is open when streaming
starts (requested, opened, header written), the events on it are: the header
write, then one successful `sam_write1` for each record a row was written for,
in order, the record passed unmodified. If the write of the `k`-th such record
is the first to fail, the events stop right after it with that failed write,
one warning and the close: no later record is handed over and nothing else
happens at finalization. If no write fails, every such record is handed over
and the destination is closed at finalization, followed by the index build
there. When the header write fails, the destination is closed at once and no
record is handed over. -/
theorem secondary_log (out_bam : List Char) (xf_vals : List Int) (env : ScanEnv)
    (hs : setup_ok out_bam env) (hreq : out_bam ≠ []) :
    (env.sam_hdr_write_ok = true →
      (∀ (k : Nat) (r : bam1_t),
        (env.records.filter (emits xf_vals env.mem))[k]? = some r →
        env.sam_write1_ok k = false → (∀ n, n < k → env.sam_write1_ok n = true) →
        (_exonBlocks_scan_bam_blocks_hts out_bam xf_vals env).log =
          [SecEvent.hdr_write true] ++
            ((env.records.filter (emits xf_vals env.mem)).take k).map
              (fun r => SecEvent.write1 r true) ++
            [SecEvent.write1 r false, SecEvent.warn_write, SecEvent.close]) ∧
      ((∀ n, n < (env.records.filter (emits xf_vals env.mem)).length →
          env.sam_write1_ok n = true) →
        (_exonBlocks_scan_bam_blocks_hts out_bam xf_vals env).log =
          [SecEvent.hdr_write true] ++
            (env.records.filter (emits xf_vals env.mem)).map
              (fun r => SecEvent.write1 r true) ++
            [SecEvent.close] ++
            (if strrchr out_bam '.' = some ".bam".toList then
              [SecEvent.index_build env.index_build_rc] ++
                (if env.index_build_rc ≠ 0 then [SecEvent.warn_index] else [])
            else []))) ∧
    (env.sam_hdr_write_ok = false →
      (_exonBlocks_scan_bam_blocks_hts out_bam xf_vals env).log =
        [SecEvent.hdr_write false, SecEvent.close]) := by
  obtain ⟨h1, h2, h3, h4, h5, h6⟩ := hs
  have h4' : ¬ env.tid < 0 := by omega
  constructor
  · intro hhdr
    have hsetup : scan_setup out_bam env = .ok (true, [SecEvent.hdr_write true]) := by
      unfold scan_setup
      simp [h1, h2, h3, h4', h6, hreq, h5 hreq, hhdr]
    constructor
    · intro k r hk hf hok
      obtain ⟨i1, i2⟩ := scan_loop_fail xf_vals env env.records
        (scan_init true [SecEvent.hdr_write true]) rfl k r hk
        (by simpa [scan_init] using hf) (by simpa [scan_init] using hok)
      unfold _exonBlocks_scan_bam_blocks_hts
      rw [hsetup]
      simp only [scan_run, finalize_out, i1, i2]
      simp [scan_init]
    · intro hok
      obtain ⟨i1, i2⟩ := scan_loop_all_ok xf_vals env env.records
        (scan_init true [SecEvent.hdr_write true]) rfl (by simpa [scan_init] using hok)
      unfold _exonBlocks_scan_bam_blocks_hts
      rw [hsetup]
      simp only [scan_run, finalize_out, i1, i2]
      simp [scan_init]
  · intro hhdr
    have hsetup : scan_setup out_bam env =
        .ok (false, [SecEvent.hdr_write false, SecEvent.close]) := by
      unfold scan_setup
      simp [h1, h2, h3, h4', h6, hreq, h5 hreq, hhdr]
    obtain ⟨i1, i2⟩ := scan_loop_closed xf_vals env env.records
      (scan_init false [SecEvent.hdr_write false, SecEvent.close]) rfl
    unfold _exonBlocks_scan_bam_blocks_hts
    rw [hsetup]
    simp only [scan_run, finalize_out, i1, i2]
    simp [scan_init]

theorem secondary_log_witness :
    (_exonBlocks_scan_bam_blocks_hts "o.bam".toList [25] env_fail2).log =
      [SecEvent.hdr_write true, SecEvent.write1 rec_3M2D2M true, SecEvent.write1 rec_10M false,
        SecEvent.warn_write, SecEvent.close] ∧
    (_exonBlocks_scan_bam_blocks_hts "o.bam".toList [25]
        { env_fail2 with sam_write1_ok := fun _ => true }).log =
      [SecEvent.hdr_write true, SecEvent.write1 rec_3M2D2M true, SecEvent.write1 rec_10M true,
        SecEvent.write1 rec_0M1M true, SecEvent.close, SecEvent.index_build 0] :=
  ⟨(((secondary_log "o.bam".toList [25] env_fail2 (by decide) (by decide)).1 (by decide)).1 1
      rec_10M (by decide) (by decide) (by decide)).trans (by decide),
    (((secondary_log "o.bam".toList [25] { env_fail2 with sam_write1_ok := fun _ => true }
      (by decide) (by decide)).1 (by decide)).2 (by decide)).trans (by decide)⟩


/-! ## C11: the decoding table -/

/-- C11 fails on the code: `nt16_table` holds the first 16 characters of the
17-character initialiser `=-ACMGRSVTWYHKDBN`, so `base_at` agrees with the BAM
alphabet `=ACMGRSVTWYHKDBN` at code 0 only; the codes 1, 2, 4, 8 and 15 decode
to `-`, `A`, `M`, `V` and `B`, and the ten bases of codes
1, 2, 4, 8, 15, 1, 2, 4, 8, 15 give the block text `-AMVB-AMVB`. -/
theorem base_at_table :
    nt16_table = "=-ACMGRSVTWYHKDB".toList ∧
    (∀ (s : List Nat) (q : Int), bam_seqi s q < 16 ∧
      base_at s q = nt16_table.getD (bam_seqi s q) '=') ∧
    (∀ c, c < 16 → (nt16_table.getD c '=' = bam_alphabet.getD c '=' ↔ c = 0)) ∧
    base_at [18, 72, 241] 0 = '-' ∧ base_at [18, 72, 241] 1 = 'A' ∧
    base_at [18, 72, 241] 2 = 'M' ∧ base_at [18, 72, 241] 3 = 'V' ∧
    base_at [18, 72, 241] 4 = 'B' ∧
    (written_blocks rec_10M).map (fun k => k.text) = ["-AMVB-AMVB".toList] := by
  refine ⟨by decide, ?_, ?_, by decide, by decide, by decide, by decide, by decide, by decide⟩
  · intro s q
    refine ⟨?_, rfl⟩
    unfold bam_seqi
    split_ifs <;> omega
  · intro c hc
    interval_cases c <;> decide


/-! ## C12: the scenario `5M2D5M` -/

theorem wrap32_small (x : Int) (h0 : 0 ≤ x) (h1 : x ≤ 1000) : wrap32 x = x :=
  wrap32_of_fits x (by unfold INT_MIN; omega) (by unfold INT_MAX; omega)

theorem blocks_5M2D5M (b : bam1_t) (hpos : b.pos = 0)
    (hcig : b.cigar =
      [bam_cigar_gen 5 BAM_CMATCH, bam_cigar_gen 2 BAM_CDEL, bam_cigar_gen 5 BAM_CMATCH]) :
    blocks_one b =
      [⟨1, 5, [base_at (bam_get_seq b) 0, base_at (bam_get_seq b) 1, base_at (bam_get_seq b) 2,
          base_at (bam_get_seq b) 3, base_at (bam_get_seq b) 4]⟩,
       ⟨8, 12, [base_at (bam_get_seq b) 5, base_at (bam_get_seq b) 6, base_at (bam_get_seq b) 7,
           base_at (bam_get_seq b) 8, base_at (bam_get_seq b) 9]⟩] := by
  unfold blocks_one
  rw [hpos, hcig]
  simp only [block_loop, bam_cigar_gen, bam_cigar_op, bam_cigar_oplen, BAM_CMATCH, BAM_CDEL,
    BAM_CEQUAL, BAM_CDIFF, BAM_CINS, BAM_CSOFT_CLIP, BAM_CREF_SKIP, query_slice]
  norm_num [wrap32, List.range_succ]

/-- C12: for every record that passes the filter, lies at 0-based position 0
and has the CIGAR `5M2D5M` (whatever its query bases), `write_blocks_one`
yields exactly the blocks `(1, 5)` and `(8, 12)` with the decoded symbols of
the query offsets 0..4 and 5..9, and the row written is
`CB ⇥ UB ⇥ 1;8 ⇥ 5;12 ⇥ t_1;t_2 ⇥ 2 ⏎`; for a query of 10 symbols these are
symbols of the query, decoded from the stored sequence bytes. -/
theorem scenario_5M2D5M (xf_vals : List Int) (env : ScanEnv) (st : ScanState) (b : bam1_t)
    (hf : record_filter xf_vals env.mem b = true) (hpos : b.pos = 0)
    (hcig : b.cigar =
      [bam_cigar_gen 5 BAM_CMATCH, bam_cigar_gen 2 BAM_CDEL, bam_cigar_gen 5 BAM_CMATCH]) :
    written_blocks b =
      [⟨1, 5, [base_at (bam_get_seq b) 0, base_at (bam_get_seq b) 1, base_at (bam_get_seq b) 2,
          base_at (bam_get_seq b) 3, base_at (bam_get_seq b) 4]⟩,
       ⟨8, 12, [base_at (bam_get_seq b) 5, base_at (bam_get_seq b) 6, base_at (bam_get_seq b) 7,
           base_at (bam_get_seq b) 8, base_at (bam_get_seq b) 9]⟩] ∧
    write_blocks_one b [] [] [] =
      (2, "1;8".toList, "5;12".toList,
        [base_at (bam_get_seq b) 0, base_at (bam_get_seq b) 1, base_at (bam_get_seq b) 2,
         base_at (bam_get_seq b) 3, base_at (bam_get_seq b) 4] ++ [';'] ++
        [base_at (bam_get_seq b) 5, base_at (bam_get_seq b) 6, base_at (bam_get_seq b) 7,
         base_at (bam_get_seq b) 8, base_at (bam_get_seq b) 9]) ∧
    (∃ cb ub, b.CB = some cb ∧ b.UB = some ub ∧
      (scan_step xf_vals env st b).fp = st.fp ++
        (cb ++ ['\t'] ++ ub ++ ['\t'] ++ "1;8".toList ++ ['\t'] ++ "5;12".toList ++ ['\t'] ++
          ([base_at (bam_get_seq b) 0, base_at (bam_get_seq b) 1, base_at (bam_get_seq b) 2,
            base_at (bam_get_seq b) 3, base_at (bam_get_seq b) 4] ++ [';'] ++
            [base_at (bam_get_seq b) 5, base_at (bam_get_seq b) 6, base_at (bam_get_seq b) 7,
             base_at (bam_get_seq b) 8, base_at (bam_get_seq b) 9]) ++
          ['\t'] ++ "2".toList ++ ['\n'])) ∧
    (b.l_qseq = 10 → ∀ k : Nat, k < 10 →
      query_symbol b k = some (base_at (bam_get_seq b) k)) ∧
    (5 ≤ b.seq.length → ∀ k : Nat, k < 10 →
      base_at (bam_get_seq b) k = base_at b.seq k) := by
  have hb := blocks_5M2D5M b hpos hcig
  have hw : write_blocks_one b [] [] [] =
      (2, "1;8".toList, "5;12".toList,
        [base_at (bam_get_seq b) 0, base_at (bam_get_seq b) 1, base_at (bam_get_seq b) 2,
         base_at (bam_get_seq b) 3, base_at (bam_get_seq b) 4] ++ [';'] ++
        [base_at (bam_get_seq b) 5, base_at (bam_get_seq b) 6, base_at (bam_get_seq b) 7,
         base_at (bam_get_seq b) 8, base_at (bam_get_seq b) 9]) := by
    have k1 : kputw 1 = "1".toList := by decide
    have k5 : kputw 5 = "5".toList := by decide
    have k8 : kputw 8 = "8".toList := by decide
    have k12 : kputw 12 = "12".toList := by decide
    rw [write_blocks_one_eq, hb]
    simp [join_semi, sep, k1, k5, k8, k12]
  refine ⟨by rw [written_blocks_eq, hb], hw, ?_, ?_, ?_⟩
  · obtain ⟨cb, ub, hcb, hub⟩ := record_filter_tags _ _ _ hf
    refine ⟨cb, ub, hcb, hub, ?_⟩
    unfold scan_step
    simp only [hf, hw]
    have hk : kputw 2 = "2".toList := by decide
    simp [secondary_write, tsv_row, hcb, hub, get_tagZ, hk]
    split_ifs <;> simp
  · intro hl k hk
    unfold query_symbol
    rw [if_pos ⟨by omega, by omega⟩]
  · intro hl k hk
    exact base_at_stored b.seq b.tail k (by omega) (by omega)

theorem scenario_5M2D5M_witness :
    written_blocks rec_5M2D5M = [⟨1, 5, "-AMVB".toList⟩, ⟨8, 12, "-AMVB".toList⟩] ∧
    write_blocks_one rec_5M2D5M [] [] [] =
      (2, "1;8".toList, "5;12".toList, "-AMVB;-AMVB".toList) ∧
    (scan_step [25] env_plain (scan_init false []) rec_5M2D5M).fp =
      tsv_header ++ "AAAC-1\tGGT\t1;8\t5;12\t-AMVB;-AMVB\t2\n".toList :=
  ⟨(scenario_5M2D5M [25] env_plain (scan_init false []) rec_5M2D5M (by decide) (by decide)
      (by decide)).1.trans (by decide),
    (scenario_5M2D5M [25] env_plain (scan_init false []) rec_5M2D5M (by decide) (by decide)
      (by decide)).2.1.trans (by decide),
    by decide⟩


/-! ## C13: fatal setup failures -/

theorem scan_setup_fails (out_bam : List Char) (env : ScanEnv) (h : ¬ setup_ok out_bam env) :
    ∃ e log, scan_setup out_bam env = .error (e, log) := by
  unfold setup_ok at h
  unfold scan_setup
  cases h1 : env.sam_open_in_ok
  · simp
  · cases h2 : env.sam_hdr_read_ok
    · simp
    · cases h3 : env.sam_index_load_ok
      · simp
      · by_cases h4 : env.tid < 0
        · simp [h4]
        · by_cases hb : out_bam = []
          · have h6 : env.fopen_ok = false := by
              cases h6 : env.fopen_ok
              · rfl
              · exact absurd ⟨h1, h2, h3, by omega, fun hc => absurd hb hc, h6⟩ h
            simp [h4, h6, hb]
          · cases h5 : env.sam_open_out_ok
            · simp [h4, hb]
            · have h6 : env.fopen_ok = false := by
                cases h6 : env.fopen_ok
                · rfl
                · exact absurd ⟨h1, h2, h3, by omega, fun _ => h5, h6⟩ h
              cases hh : env.sam_hdr_write_ok <;> simp [h4, h6, hb, hh]

theorem scan_pulled_abort (out_bam : List Char) (xf_vals : List Int) (env : ScanEnv)
    (e : ScanError) (log : List SecEvent) (h : scan_setup out_bam env = .error (e, log)) :
    (_exonBlocks_scan_bam_blocks_hts out_bam xf_vals env).pulled = 0 := by
  unfold _exonBlocks_scan_bam_blocks_hts
  rw [h]
  rfl

/-- C13: if opening the input, reading its header, loading its index, resolving
the contig, opening the requested secondary output or opening the row file
fails, the scan ends in an error, the row file has received nothing (not even
the header line) and no record has been pulled; conversely, if anything was
written to the row file, all of these steps succeeded (and the row file then
starts with the header line). -/
theorem setup_failure_is_fatal (out_bam : List Char) (xf_vals : List Int) (env : ScanEnv) :
    ((env.sam_open_in_ok = false ∨ env.sam_hdr_read_ok = false ∨
        env.sam_index_load_ok = false ∨ env.tid < 0 ∨
        (out_bam ≠ [] ∧ env.sam_open_out_ok = false) ∨ env.fopen_ok = false) →
      (_exonBlocks_scan_bam_blocks_hts out_bam xf_vals env).error ≠ none ∧
      (_exonBlocks_scan_bam_blocks_hts out_bam xf_vals env).tsv = [] ∧
      (_exonBlocks_scan_bam_blocks_hts out_bam xf_vals env).pulled = 0) ∧
    ((_exonBlocks_scan_bam_blocks_hts out_bam xf_vals env).tsv ≠ [] →
      (env.sam_open_in_ok = true ∧ env.sam_hdr_read_ok = true ∧
        env.sam_index_load_ok = true ∧ 0 ≤ env.tid ∧
        (out_bam ≠ [] → env.sam_open_out_ok = true) ∧ env.fopen_ok = true) ∧
      tsv_header <+: (_exonBlocks_scan_bam_blocks_hts out_bam xf_vals env).tsv) := by
  have hfail : ¬ setup_ok out_bam env →
      (_exonBlocks_scan_bam_blocks_hts out_bam xf_vals env).error ≠ none ∧
      (_exonBlocks_scan_bam_blocks_hts out_bam xf_vals env).tsv = [] ∧
      (_exonBlocks_scan_bam_blocks_hts out_bam xf_vals env).pulled = 0 := by
    intro h
    obtain ⟨e, log, hs⟩ := scan_setup_fails out_bam env h
    obtain ⟨h1, h2, _⟩ := scan_outcome_abort out_bam xf_vals env e log hs
    exact ⟨by rw [h1]; simp, h2, scan_pulled_abort out_bam xf_vals env e log hs⟩
  constructor
  · intro h
    apply hfail
    rintro ⟨a1, a2, a3, a4, a5, a6⟩
    rcases h with h | h | h | h | h | h
    · rw [a1] at h; exact absurd h (by simp)
    · rw [a2] at h; exact absurd h (by simp)
    · rw [a3] at h; exact absurd h (by simp)
    · omega
    · rw [a5 h.1] at h; exact absurd h.2 (by simp)
    · rw [a6] at h; exact absurd h (by simp)
  · intro h
    by_cases hs : setup_ok out_bam env
    · refine ⟨hs, ?_⟩
      rw [(scan_outcome_rows out_bam xf_vals env hs).2.1]
      exact List.prefix_append _ _
    · exact absurd (hfail hs).2.1 h

theorem setup_failure_is_fatal_witness :
    ((_exonBlocks_scan_bam_blocks_hts "o.bam".toList [25] env_no_tsv).error ≠ none ∧
      (_exonBlocks_scan_bam_blocks_hts "o.bam".toList [25] env_no_tsv).tsv = [] ∧
      (_exonBlocks_scan_bam_blocks_hts "o.bam".toList [25] env_no_tsv).pulled = 0) ∧
    ((env_fail2.sam_open_in_ok = true ∧ env_fail2.sam_hdr_read_ok = true ∧
        env_fail2.sam_index_load_ok = true ∧ 0 ≤ env_fail2.tid ∧
        ("o.bam".toList ≠ [] → env_fail2.sam_open_out_ok = true) ∧ env_fail2.fopen_ok = true) ∧
      tsv_header <+: (_exonBlocks_scan_bam_blocks_hts "o.bam".toList [25] env_fail2).tsv) :=
  ⟨(setup_failure_is_fatal "o.bam".toList [25] env_no_tsv).1 (by decide),
    (setup_failure_is_fatal "o.bam".toList [25] env_fail2).2 (by decide)⟩


/-! ## C14: the returned vector -/

/-- C14 fails on the code: the returned vector is allocated with one element,
`(int) n_reads`; a successful scan returns a vector of length 1, never 3 (here:
three rows written, `[3]` returned). -/
theorem scan_ans_length (out_bam : List Char) (xf_vals : List Int) (env : ScanEnv) :
    (_exonBlocks_scan_bam_blocks_hts out_bam xf_vals env).ans.length =
      (if (_exonBlocks_scan_bam_blocks_hts out_bam xf_vals env).error = none then 1 else 0) ∧
    (_exonBlocks_scan_bam_blocks_hts out_bam xf_vals env).ans.length ≠ 3 ∧
    (_exonBlocks_scan_bam_blocks_hts "o.bam".toList [25] env_fail2).error = none ∧
    (_exonBlocks_scan_bam_blocks_hts "o.bam".toList [25] env_fail2).ans = [3] := by
  have h : (_exonBlocks_scan_bam_blocks_hts out_bam xf_vals env).ans.length =
      (if (_exonBlocks_scan_bam_blocks_hts out_bam xf_vals env).error = none then 1 else 0) := by
    unfold _exonBlocks_scan_bam_blocks_hts
    rcases scan_setup out_bam env with ⟨e, log⟩ | ⟨out, log⟩ <;> simp [abort, scan_run]
  refine ⟨h, ?_, by decide, by decide⟩
  rw [h]
  split_ifs <;> decide


/-! ## C15: `write_blocks_one` only appends -/

/-- C15: for every record and all prior contents of the three buffers,
`write_blocks_one` leaves each buffer as its prior content followed by what the
call produces on an empty buffer, and returns the count it returns on empty
buffers; in particular a second call on the buffers left by a first call on
empty buffers appends the same three texts again and returns the same count. -/
theorem write_blocks_one_appends (b : bam1_t) (P_start P_end P_seq : List Char) :
    write_blocks_one b P_start P_end P_seq =
      ((write_blocks_one b [] [] []).1,
        P_start ++ (write_blocks_one b [] [] []).2.1,
        P_end ++ (write_blocks_one b [] [] []).2.2.1,
        P_seq ++ (write_blocks_one b [] [] []).2.2.2) ∧
    write_blocks_one b (write_blocks_one b [] [] []).2.1 (write_blocks_one b [] [] []).2.2.1
        (write_blocks_one b [] [] []).2.2.2 =
      ((write_blocks_one b [] [] []).1,
        (write_blocks_one b [] [] []).2.1 ++ (write_blocks_one b [] [] []).2.1,
        (write_blocks_one b [] [] []).2.2.1 ++ (write_blocks_one b [] [] []).2.2.1,
        (write_blocks_one b [] [] []).2.2.2 ++ (write_blocks_one b [] [] []).2.2.2) := by
  have h : ∀ s e q : List Char, write_blocks_one b s e q =
      ((write_blocks_one b [] [] []).1, s ++ (write_blocks_one b [] [] []).2.1,
        e ++ (write_blocks_one b [] [] []).2.2.1, q ++ (write_blocks_one b [] [] []).2.2.2) := by
    intro s e q
    rw [write_blocks_one_eq b s e q, write_blocks_one_eq b [] [] []]
    simp
  exact ⟨h _ _ _, h _ _ _⟩


/-! ## C16: no state from one record to the next -/

theorem scan_outcome_with_records (out_bam : List Char) (xf_vals : List Int) (env : ScanEnv)
    (rs : List bam1_t) (h : setup_ok out_bam env) :
    (_exonBlocks_scan_bam_blocks_hts out_bam xf_vals (with_records env rs)).tsv =
      tsv_header ++ rows_of xf_vals env.mem rs ∧
    (_exonBlocks_scan_bam_blocks_hts out_bam xf_vals (with_records env rs)).ans =
      [wrap32 (pass_count xf_vals env.mem rs : Int)] := by
  have hs : setup_ok out_bam (with_records env rs) := h
  obtain ⟨_, h2, h3⟩ := scan_outcome_rows out_bam xf_vals (with_records env rs) hs
  exact ⟨h2, h3⟩

/-- C16, as stated, fails on the pass count: two streams of 1073741824 passing
records each return 1073741824, and their concatenation returns `-2147483648`,
not the sum 2147483648. -/
theorem rows_concat_counterexample :
    setup_ok [] env_plain ∧
    (_exonBlocks_scan_bam_blocks_hts [] [25] (with_records env_plain stream_1G)).ans =
      [1073741824] ∧
    (_exonBlocks_scan_bam_blocks_hts [] [25]
        (with_records env_plain (stream_1G ++ stream_1G))).ans = [-2147483648] := by
  have hs : setup_ok [] env_plain := by decide
  have he : emits [25] env_plain.mem rec_3M2D2M = true := by decide
  have h1 : pass_count [25] env_plain.mem stream_1G = 1073741824 := by
    unfold pass_count stream_1G
    rw [List.filter_replicate_of_pos he, List.length_replicate]
  have h2 : pass_count [25] env_plain.mem (stream_1G ++ stream_1G) = 2147483648 := by
    unfold pass_count at h1 ⊢
    rw [List.filter_append, List.length_append, h1]
  refine ⟨hs, ?_, ?_⟩
  · rw [(scan_outcome_with_records [] [25] env_plain stream_1G hs).2, h1]
    decide
  · rw [(scan_outcome_with_records [] [25] env_plain (stream_1G ++ stream_1G) hs).2, h2]
    decide

/-- C16, amended: with a fixed allow list, the rows written after the header
for the stream `R1 ++ R2` are the rows for `R1` followed by the rows for `R2`,
and the counter `n_reads` for `R1 ++ R2` is the sum of the counters for `R1`
and `R2`, from whatever loop state each part starts; the value returned for
`R1 ++ R2` is that sum reduced to a signed 32-bit int, which is the sum of the
two returned values whenever it is below 2147483648; and the row an iteration
appends is determined by the record alone, whatever the three reused buffers
held before. -/
theorem rows_concat (out_bam : List Char) (xf_vals : List Int) (env : ScanEnv)
    (R1 R2 : List bam1_t) (h : setup_ok out_bam env) :
    (∀ st st' : ScanState,
      (scan_loop xf_vals env (R1 ++ R2) st).fp =
        (scan_loop xf_vals env R1 st).fp ++
          (scan_loop xf_vals env R2 st').fp.drop st'.fp.length ∧
      (scan_loop xf_vals env (R1 ++ R2) st).n_reads =
        (scan_loop xf_vals env R1 st).n_reads +
          ((scan_loop xf_vals env R2 st').n_reads - st'.n_reads)) ∧
    (_exonBlocks_scan_bam_blocks_hts out_bam xf_vals (with_records env (R1 ++ R2))).tsv =
      tsv_header ++
        (_exonBlocks_scan_bam_blocks_hts out_bam xf_vals
          (with_records env R1)).tsv.drop tsv_header.length ++
        (_exonBlocks_scan_bam_blocks_hts out_bam xf_vals
          (with_records env R2)).tsv.drop tsv_header.length ∧
    (_exonBlocks_scan_bam_blocks_hts out_bam xf_vals (with_records env R1)).ans =
      [wrap32 (pass_count xf_vals env.mem R1 : Int)] ∧
    (_exonBlocks_scan_bam_blocks_hts out_bam xf_vals (with_records env R2)).ans =
      [wrap32 (pass_count xf_vals env.mem R2 : Int)] ∧
    (_exonBlocks_scan_bam_blocks_hts out_bam xf_vals (with_records env (R1 ++ R2))).ans =
      [wrap32 ((pass_count xf_vals env.mem R1 : Int) + (pass_count xf_vals env.mem R2 : Int))] ∧
    (pass_count xf_vals env.mem R1 + pass_count xf_vals env.mem R2 < 2147483648 →
      (_exonBlocks_scan_bam_blocks_hts out_bam xf_vals (with_records env (R1 ++ R2))).ans =
        List.zipWith (fun x y => x + y)
          (_exonBlocks_scan_bam_blocks_hts out_bam xf_vals (with_records env R1)).ans
          (_exonBlocks_scan_bam_blocks_hts out_bam xf_vals (with_records env R2)).ans) ∧
    (∀ (st : ScanState) (b : bam1_t),
      (scan_step xf_vals env st b).fp =
        st.fp ++ (if emits xf_vals env.mem b then row_of b else [])) := by
  obtain ⟨t1, a1⟩ := scan_outcome_with_records out_bam xf_vals env R1 h
  obtain ⟨t2, a2⟩ := scan_outcome_with_records out_bam xf_vals env R2 h
  obtain ⟨t12, a12⟩ := scan_outcome_with_records out_bam xf_vals env (R1 ++ R2) h
  have hc : pass_count xf_vals env.mem (R1 ++ R2) =
      pass_count xf_vals env.mem R1 + pass_count xf_vals env.mem R2 := by
    simp [pass_count, List.filter_append]
  have hr : rows_of xf_vals env.mem (R1 ++ R2) =
      rows_of xf_vals env.mem R1 ++ rows_of xf_vals env.mem R2 := by
    simp [rows_of, List.filter_append]
  refine ⟨?_, ?_, a1, a2, ?_, ?_, ?_⟩
  · intro st st'
    obtain ⟨f12, n12⟩ := scan_loop_rows xf_vals env (R1 ++ R2) st
    obtain ⟨f1, n1⟩ := scan_loop_rows xf_vals env R1 st
    obtain ⟨f2, n2⟩ := scan_loop_rows xf_vals env R2 st'
    rw [f12, f1, f2, n12, n1, n2]
    simp [List.filter_append]
    omega
  · rw [t12, t1, t2, hr]
    simp
  · rw [a12, hc]
    simp
  · intro hlt
    rw [a12, a1, a2, hc]
    simp only [List.zipWith_cons_cons, List.zipWith_nil_right]
    have := hlt
    rw [wrap32_of_fits _ (by unfold INT_MIN; omega) (by unfold INT_MAX; omega),
      wrap32_of_fits _ (by unfold INT_MIN; omega) (by unfold INT_MAX; omega),
      wrap32_of_fits _ (by unfold INT_MIN; omega) (by unfold INT_MAX; omega)]
    simp
  · intro st b
    cases he : emits xf_vals env.mem b
    · simpa using (scan_step_skip xf_vals env st b he).1
    · simpa using (scan_step_emits xf_vals env st b he).1


theorem rows_concat_witness :
    (_exonBlocks_scan_bam_blocks_hts [] [25]
        (with_records env_plain ([rec_3M2D2M, rec_no_block] ++ [rec_10M, rec_0M1M]))).tsv =
      tsv_header ++
        (_exonBlocks_scan_bam_blocks_hts [] [25]
          (with_records env_plain [rec_3M2D2M, rec_no_block])).tsv.drop tsv_header.length ++
        (_exonBlocks_scan_bam_blocks_hts [] [25]
          (with_records env_plain [rec_10M, rec_0M1M])).tsv.drop tsv_header.length ∧
    (_exonBlocks_scan_bam_blocks_hts [] [25]
        (with_records env_plain ([rec_3M2D2M, rec_no_block] ++ [rec_10M, rec_0M1M]))).ans =
      [1 + 2] :=
  ⟨(rows_concat [] [25] env_plain [rec_3M2D2M, rec_no_block] [rec_10M, rec_0M1M]
      (by decide)).2.1,
    ((rows_concat [] [25] env_plain [rec_3M2D2M, rec_no_block] [rec_10M, rec_0M1M]
      (by decide)).2.2.2.2.2.1 (by decide)).trans (by decide)⟩

/-! ## C17: hard-clip, pad and unknown kinds -/

theorem cigar_step_noop (qseq : List Nat) (st : WState) (c : Nat) (h : is_noop c = true) :
    cigar_step qseq st c = st := by
  unfold is_noop consumes_ref consumes_query is_block_op at h
  simp only [Bool.and_eq_true, Bool.not_eq_true', Bool.or_eq_false_iff, decide_eq_false_iff_not,
    not_or] at h
  obtain ⟨⟨⟨⟨h1, h2, h3⟩, h4⟩, h5⟩, ⟨_, h6⟩, h7⟩ := h
  unfold cigar_step
  simp [h1, h2, h3, h4, h5, h6, h7]

theorem cigar_loop_filter_noop (qseq : List Nat) (l : List Nat) (st : WState) :
    cigar_loop qseq (l.filter (fun c => !is_noop c)) st = cigar_loop qseq l st := by
  induction l generalizing st with
  | nil => rfl
  | cons c cs ih =>
    cases h : is_noop c
    · simp [List.filter_cons, h, cigar_loop, ih]
    · simp [List.filter_cons, h, cigar_loop, ih, cigar_step_noop qseq st c h]

/-- C17: two CIGARs that differ only by hard-clip, pad or unknown-kind entries
(any number of them, of any length, at any positions) give the same three
buffers and the same block count; in particular putting such entries in at any
position, or taking all of them out, changes nothing; and the loop iteration on
such an entry leaves both cursors (the whole state) as they were. -/
theorem noop_entries_ignored (b : bam1_t) (cig1 cig2 : List Nat) (s e q : List Char)
    (h : cig1.filter (fun c => !is_noop c) = cig2.filter (fun c => !is_noop c)) :
    write_blocks_one (with_cigar b cig1) s e q = write_blocks_one (with_cigar b cig2) s e q ∧
    (∀ (pre ins post : List Nat), (∀ c ∈ ins, is_noop c = true) →
      write_blocks_one (with_cigar b (pre ++ ins ++ post)) s e q =
        write_blocks_one (with_cigar b (pre ++ post)) s e q) ∧
    write_blocks_one (with_cigar b (cig1.filter (fun c => !is_noop c))) s e q =
      write_blocks_one (with_cigar b cig1) s e q ∧
    (∀ (st : WState) (c : Nat), is_noop c = true → cigar_step (bam_get_seq b) st c = st) := by
  have key : ∀ l1 l2 : List Nat,
      l1.filter (fun c => !is_noop c) = l2.filter (fun c => !is_noop c) →
      write_blocks_one (with_cigar b l1) s e q = write_blocks_one (with_cigar b l2) s e q := by
    intro l1 l2 hl
    have hp : ∀ l : List Nat, bam_get_seq (with_cigar b l) = bam_get_seq b := fun _ => rfl
    unfold write_blocks_one
    rw [hp l1, hp l2]
    unfold with_cigar
    simp only []
    rw [← cigar_loop_filter_noop (bam_get_seq b) l1,
      ← cigar_loop_filter_noop (bam_get_seq b) l2, hl]
  refine ⟨key _ _ h, ?_, ?_, fun st c hc => cigar_step_noop (bam_get_seq b) st c hc⟩
  · intro pre ins post hins
    apply key
    have : ins.filter (fun c => !is_noop c) = [] := by
      rw [List.filter_eq_nil_iff]
      intro c hc
      simp [hins c hc]
    simp [List.filter_append, this]
  · apply key
    simp [List.filter_filter]

theorem noop_entries_ignored_witness :
    write_blocks_one (with_cigar rec_3M2D2M cigar_padded) [] [] [] =
        write_blocks_one (with_cigar rec_3M2D2M rec_3M2D2M.cigar) [] [] [] ∧
      write_blocks_one (with_cigar rec_3M2D2M cigar_padded) [] [] [] =
        (2, "101;106".toList, "103;107".toList, "-AM;VB".toList) :=
  ⟨(noop_entries_ignored rec_3M2D2M cigar_padded rec_3M2D2M.cigar [] [] [] (by decide)).1,
    by decide⟩


/-! ## C18: the index build at finalization -/

theorem scan_loop_out_iff (xf_vals : List Int) (env : ScanEnv) (l : List bam1_t)
    (st : ScanState) :
    (scan_loop xf_vals env l st).out = true ↔
      st.out = true ∧ ∀ n, n < pass_count xf_vals env.mem l →
        env.sam_write1_ok (st.n_reads + n) = true := by
  induction l generalizing st with
  | nil => simp [scan_loop, pass_count]
  | cons b bs ih =>
    rw [scan_loop, ih]
    cases he : emits xf_vals env.mem b
    · obtain ⟨_, h2, h3, _⟩ := scan_step_skip xf_vals env st b he
      simp [pass_count, List.filter_cons, he, h2, h3]
    · obtain ⟨_, h2, h3, _⟩ := scan_step_emits xf_vals env st b he
      simp only [pass_count, List.filter_cons, he, if_true, List.length_cons, h2, h3,
        Bool.and_eq_true]
      constructor
      · rintro ⟨⟨a1, a2⟩, a3⟩
        refine ⟨a1, fun n hn => ?_⟩
        cases n with
        | zero => simpa using a2
        | succ n =>
          have := a3 n (by omega)
          rw [show st.n_reads + 1 + n = st.n_reads + (n + 1) by omega] at this
          exact this
      · rintro ⟨a1, a3⟩
        refine ⟨⟨a1, by simpa using a3 0 (by omega)⟩, fun n hn => ?_⟩
        rw [show st.n_reads + 1 + n = st.n_reads + (n + 1) by omega]
        exact a3 (n + 1) (by omega)

theorem scan_loop_no_index (xf_vals : List Int) (env : ScanEnv) (l : List bam1_t)
    (st : ScanState) :
    (scan_loop xf_vals env l st).log.filter is_index_build =
      st.log.filter is_index_build := by
  induction l generalizing st with
  | nil => rfl
  | cons b bs ih =>
    rw [scan_loop, ih]
    cases he : emits xf_vals env.mem b
    · rw [(scan_step_skip xf_vals env st b he).2.2.2]
    · rw [(scan_step_emits xf_vals env st b he).2.2.2]
      cases st.out <;> cases env.sam_write1_ok st.n_reads <;>
        simp [List.filter_append, is_index_build]

theorem scan_setup_ok_log (out_bam : List Char) (env : ScanEnv) (out : Bool)
    (log : List SecEvent) (h : scan_setup out_bam env = .ok (out, log)) :
    log.filter is_index_build = [] ∧
      out = (decide (out_bam ≠ []) && env.sam_hdr_write_ok) := by
  unfold scan_setup at h
  split_ifs at h with h1 h2 h3 h4 h5 h6 h7 h8 h9 h10 <;>
    simp only [Except.ok.injEq, Prod.mk.injEq, reduceCtorEq] at h <;>
    obtain ⟨rfl, rfl⟩ := h <;> simp_all [is_index_build]

/-- C18: in a scan whose setup succeeded, `sam_index_build3` is called (once,
at finalization) if and only if the secondary destination was requested, its
header write succeeded, no record write failed, and the text of the output
path from its last `.` is exactly `.bam`; and whatever the index build
returns, the row file and the returned vector are the same. -/
theorem index_build_requested (out_bam : List Char) (xf_vals : List Int) (env : ScanEnv)
    (hs : setup_ok out_bam env) :
    ((_exonBlocks_scan_bam_blocks_hts out_bam xf_vals env).log.any is_index_build = true ↔
      (out_bam ≠ [] ∧ env.sam_hdr_write_ok = true ∧
        (∀ n, n < pass_count xf_vals env.mem env.records → env.sam_write1_ok n = true)) ∧
      strrchr out_bam '.' = some ".bam".toList) ∧
    ((_exonBlocks_scan_bam_blocks_hts out_bam xf_vals env).log.any is_index_build = true →
      (_exonBlocks_scan_bam_blocks_hts out_bam xf_vals env).log.filter is_index_build =
        [SecEvent.index_build env.index_build_rc]) ∧
    (∀ rc : Int,
      (_exonBlocks_scan_bam_blocks_hts out_bam xf_vals (with_index_rc env rc)).tsv =
        (_exonBlocks_scan_bam_blocks_hts out_bam xf_vals env).tsv ∧
      (_exonBlocks_scan_bam_blocks_hts out_bam xf_vals (with_index_rc env rc)).ans =
        (_exonBlocks_scan_bam_blocks_hts out_bam xf_vals env).ans) := by
  obtain ⟨out, log, hsetup, _⟩ := scan_setup_of_ok out_bam env hs
  obtain ⟨hlog, hout⟩ := scan_setup_ok_log out_bam env out log hsetup
  have hfin := scan_loop_out_iff xf_vals env env.records (scan_init out log)
  have hni := scan_loop_no_index xf_vals env env.records (scan_init out log)
  have hfilter : (_exonBlocks_scan_bam_blocks_hts out_bam xf_vals env).log.filter
      is_index_build =
      (if (scan_loop xf_vals env env.records (scan_init out log)).out = true ∧
          strrchr out_bam '.' = some ".bam".toList
        then [SecEvent.index_build env.index_build_rc] else []) := by
    have hni' : (scan_loop xf_vals env env.records (scan_init out log)).log.filter
        is_index_build = [] := by
      rw [hni]
      exact hlog
    have e1 : [SecEvent.close].filter is_index_build = [] := rfl
    have e2 : [SecEvent.warn_index].filter is_index_build = [] := rfl
    have e3 : [SecEvent.index_build env.index_build_rc].filter is_index_build =
        [SecEvent.index_build env.index_build_rc] := rfl
    unfold _exonBlocks_scan_bam_blocks_hts
    rw [hsetup]
    simp only [scan_run, finalize_out]
    cases ho : (scan_loop xf_vals env env.records (scan_init out log)).out
    · simp only [Bool.false_eq_true, if_false, false_and]
      exact hni'
    · by_cases hd : strrchr out_bam '.' = some ".bam".toList
      · by_cases hrc : env.index_build_rc = 0
        · simp only [hd, hrc, if_true, true_and, List.filter_append, hni', e1, ne_eq,
            not_true_eq_false, if_false, List.nil_append, List.append_nil]
          rfl
        · simp only [hd, hrc, if_true, true_and, List.filter_append, hni', e1, e2, e3, ne_eq,
            not_false_eq_true, List.nil_append, List.append_nil]
      · simp only [hd, if_true, if_false, and_false, List.filter_append, hni', e1,
          List.nil_append, List.append_nil, List.filter_nil]
  have hany : (_exonBlocks_scan_bam_blocks_hts out_bam xf_vals env).log.any is_index_build =
      true ↔ ((scan_loop xf_vals env env.records (scan_init out log)).out = true ∧
          strrchr out_bam '.' = some ".bam".toList) := by
    rw [List.any_eq_true]
    constructor
    · rintro ⟨x, hx, hxi⟩
      have hm : x ∈ (_exonBlocks_scan_bam_blocks_hts out_bam xf_vals env).log.filter
          is_index_build := List.mem_filter.2 ⟨hx, hxi⟩
      rw [hfilter] at hm
      by_contra hc
      rw [if_neg hc] at hm
      simp at hm
    · intro hc
      have hm : SecEvent.index_build env.index_build_rc ∈
          (_exonBlocks_scan_bam_blocks_hts out_bam xf_vals env).log.filter is_index_build := by
        rw [hfilter, if_pos hc]
        simp
      exact ⟨_, (List.mem_filter.1 hm).1, (List.mem_filter.1 hm).2⟩
  refine ⟨?_, ?_, ?_⟩
  · rw [hany, hfin]
    simp only [scan_init, zero_add, hout, Bool.and_eq_true, decide_eq_true_eq]
    tauto
  · intro ha
    rw [hfilter, if_pos (hany.1 ha)]
  · intro rc
    have hs' : setup_ok out_bam (with_index_rc env rc) := hs
    obtain ⟨_, t1, r1⟩ := scan_outcome_rows out_bam xf_vals env hs
    obtain ⟨_, t2, r2⟩ := scan_outcome_rows out_bam xf_vals (with_index_rc env rc) hs'
    exact ⟨by rw [t1, t2]; rfl, by rw [r1, r2]; rfl⟩


theorem index_build_requested_witness :
    (_exonBlocks_scan_bam_blocks_hts "o.bam".toList [25] env_four).log.any is_index_build =
      true ∧
    (_exonBlocks_scan_bam_blocks_hts "o.bam".toList [25] env_four).log.filter is_index_build =
      [SecEvent.index_build 0] ∧
    (_exonBlocks_scan_bam_blocks_hts "o.bam".toList [25] (with_index_rc env_four 7)).tsv =
      (_exonBlocks_scan_bam_blocks_hts "o.bam".toList [25] env_four).tsv :=
  ⟨(index_build_requested "o.bam".toList [25] env_four (by decide)).1.2
      ⟨⟨by decide, by decide, fun _ _ => rfl⟩, by decide⟩,
    (index_build_requested "o.bam".toList [25] env_four (by decide)).2.1 (by decide),
    ((index_build_requested "o.bam".toList [25] env_four (by decide)).2.2 7).1⟩

/-! ## C19: the slots the membership loop reads -/

theorem xf_loop_reads_range (xf : Int) (slot : Nat → Int) (i k : Nat) :
    ∀ j ∈ (xf_loop xf slot i k).2, i ≤ j ∧ j < i + k := by
  induction k generalizing i with
  | zero => simp [xf_loop]
  | succ k ih =>
    unfold xf_loop
    split_ifs
    · intro j hj
      simp only [List.mem_singleton] at hj
      omega
    · intro j hj
      rcases List.mem_cons.1 hj with rfl | hj
      · omega
      · have := ih (i + 1) j hj
        omega

/-- C19 fails on the code: the membership loop runs to the caller's length `n`
(every slot it reads is below `n`, nothing more), not to `min n 16`. With an
allow list of 17 values and a record whose `xf` is 99 the loop reads the slots
0..16, slot 16 lying outside the 16-slot array; a record whose `xf` is the
17th allowed value is rejected, and one whose `xf` equals what lies past the
array is let through. -/
theorem xf_loop_reads :
    (∀ (xf : Int) (slot : Nat → Int) (n j : Nat), j ∈ (xf_loop xf slot 0 n).2 → j < n) ∧
    (xf_loop 99 (xf_allow xf_17 env_plain.mem) 0 xf_17.length).2 = List.range 17 ∧
    16 ∈ (xf_loop 99 (xf_allow xf_17 env_plain.mem) 0 xf_17.length).2 ∧
    ¬ (16 < min xf_17.length 16) ∧
    record_filter xf_17 env_plain.mem (rec_xf 17) = false ∧
    record_filter xf_17 env_plain.mem (rec_xf 0) = true := by
  refine ⟨?_, by decide, by decide, by decide, by decide, by decide⟩
  intro xf slot n j hj
  have := xf_loop_reads_range xf slot 0 n j hj
  omega


/-! ## C20: the query offsets handed to `base_at` -/

theorem block_text_offsets (qseq : List Nat) (l : List Nat) (r q : Int) :
    ((block_loop qseq l r q).map (fun k => k.text)).flatten =
      (base_at_offsets l q).map (base_at qseq) := by
  induction l generalizing r q with
  | nil => simp [block_loop, base_at_offsets]
  | cons c cs ih =>
    rw [block_loop_cons, base_at_offsets, List.map_append, List.flatten_append, ih,
      List.map_append]
    congr 1
    cases hb : is_block_op c <;> simp [query_slice]

theorem base_at_offsets_bound (l : List Nat) (q : Int) (h0 : 0 ≤ q)
    (h1 : q + span consumes_query l ≤ INT_MAX) :
    ∀ off ∈ base_at_offsets l q, q ≤ off ∧ off < q + span consumes_query l := by
  induction l generalizing q with
  | nil => simp [base_at_offsets]
  | cons c cs ih =>
    have n1 := span_nonneg consumes_query cs
    have hl := oplen_lt c
    unfold INT_MAX at h1
    simp only [span] at h1 ⊢
    intro off hoff
    rw [base_at_offsets] at hoff
    rcases List.mem_append.1 hoff with hoff | hoff
    · cases hb : is_block_op c
      · simp [hb] at hoff
      · have hcq : consumes_query c = true := by simp [consumes_query, hb]
        simp only [hb, if_true, List.mem_map, List.mem_range] at hoff
        simp only [hcq, if_true] at h1 ⊢
        obtain ⟨j, hj, rfl⟩ := hoff
        rw [wrap32_of_fits _ (by unfold INT_MIN; omega) (by unfold INT_MAX; omega)]
        omega
    · cases hcq : consumes_query c
      · simp only [hcq, Bool.false_eq_true, if_false, zero_add] at h1 hoff ⊢
        exact ih q h0 (by unfold INT_MAX; omega) off hoff
      · simp only [hcq, if_true] at h1 hoff ⊢
        rw [wrap32_of_fits _ (by unfold INT_MIN; omega) (by unfold INT_MAX; omega)] at hoff
        have := ih _ (by omega) (by unfold INT_MAX; omega) off hoff
        omega

/-- C20: for a record whose query-consuming lengths sum to at most `l_qseq`
(an `int32_t` field, so at most 2147483647), the text of its blocks is `base_at`
applied to the offsets `qpos + j` of the loop, and each of these offsets is
non-negative and below `l_qseq`; the 4-bit code read there is below 16, the
size of `nt16_table`, so the table lookup is in range; and when the record
stores `(l_qseq + 1) / 2` sequence bytes, the byte read lies among them, so
the symbol does not depend on the bytes that follow the sequence. -/
theorem base_at_in_bounds (b : bam1_t)
    (hsum : span consumes_query b.cigar ≤ (b.l_qseq : Int))
    (hlq : (b.l_qseq : Int) ≤ INT_MAX) :
    ((written_blocks b).map (fun k => k.text)).flatten =
      (base_at_offsets b.cigar 0).map (base_at (bam_get_seq b)) ∧
    ∀ off ∈ base_at_offsets b.cigar 0,
      0 ≤ off ∧ off < (b.l_qseq : Int) ∧
      bam_seqi (bam_get_seq b) off < nt16_table.length ∧
      nt16_table[bam_seqi (bam_get_seq b) off]? = some (base_at (bam_get_seq b) off) ∧
      (b.seq.length = (b.l_qseq + 1) / 2 →
        (off / 2).toNat < b.seq.length ∧
        base_at (bam_get_seq b) off = base_at b.seq off) := by
  refine ⟨?_, ?_⟩
  · rw [written_blocks_eq]
    exact block_text_offsets _ _ _ _
  · intro off hoff
    have hb := base_at_offsets_bound b.cigar 0 (le_refl _) (by omega) off hoff
    have hlen : nt16_table.length = 16 := by decide
    have hcode : bam_seqi (bam_get_seq b) off < 16 := by
      unfold bam_seqi
      split_ifs <;> omega
    refine ⟨hb.1, by omega, by omega, ?_, ?_⟩
    · unfold base_at
      rw [List.getD_eq_getElem?_getD, List.getElem?_eq_getElem (by omega)]
      rfl
    · intro hs
      have hin : (off / 2).toNat < b.seq.length := by omega
      exact ⟨hin, base_at_stored b.seq b.tail off hb.1 hin⟩

theorem base_at_in_bounds_witness :
    ((written_blocks rec_3M2D2M).map (fun k => k.text)).flatten =
      (base_at_offsets rec_3M2D2M.cigar 0).map (base_at (bam_get_seq rec_3M2D2M)) ∧
    ∀ off ∈ base_at_offsets rec_3M2D2M.cigar 0,
      0 ≤ off ∧ off < (rec_3M2D2M.l_qseq : Int) ∧
      bam_seqi (bam_get_seq rec_3M2D2M) off < nt16_table.length ∧
      nt16_table[bam_seqi (bam_get_seq rec_3M2D2M) off]? =
        some (base_at (bam_get_seq rec_3M2D2M) off) ∧
      (rec_3M2D2M.seq.length = (rec_3M2D2M.l_qseq + 1) / 2 →
        (off / 2).toNat < rec_3M2D2M.seq.length ∧
        base_at (bam_get_seq rec_3M2D2M) off = base_at rec_3M2D2M.seq off) :=
  base_at_in_bounds rec_3M2D2M (by decide) (by decide)

end ExonBlocks
